import Mathlib

/-!
# Verification of the garrison repository (cow-development/garrison-server-app)

Shallow embedding of `src/repos/dynamic/garrison/garrison.repo.ts` (the
mutating operations of the garrison aggregate) and proofs of the frozen
claims about it.

Modelling conventions:
* JS `number` values (resource quantities, catalog costs, harvest amounts,
  durations) are embedded as `ℚ`; `Date` values as `ℚ` milliseconds since
  the epoch.  `Math.floor` is `Int.floor`, `Math.round` is `jsRound`
  (`⌊x + 1/2⌋`, which is JS rounding for the values that occur here).
* MongoDB `ObjectId`s are embedded as `Nat`; fresh ids created by an
  operation are passed in as arguments.
* A repository method is a function `... → Except ErrorHandler Garrison`;
  a thrown `ErrorHandler(status, ...)` is `.error ⟨status⟩`.  On `.error`
  the source never reaches `garrison.save()`, so the persisted garrison is
  unchanged (`persist`).
-/

namespace GarrisonRepo

/-- JS `Math.round` for the nonnegative values used by the repository. -/
def jsRound (q : ℚ) : ℤ := ⌊q + 1/2⌋

/-- JS `Array.prototype.splice(start, 1)`: a negative `start` counts from the
end of the array (clamped at 0), a `start` past the end removes nothing. -/
def jsSpliceRemoveOne {α : Type} (l : List α) (i : ℤ) : List α :=
  let start : Nat := if i < 0 then ((l.length : ℤ) + i).toNat else i.toNat
  l.take start ++ l.drop (start + 1)

/-- JS `Array.prototype.findIndex`: index of the first match, `-1` if none. -/
def jsFindIndex {α : Type} (p : α → Bool) (l : List α) : ℤ :=
  match l.findIdx? p with
  | some n => (n : ℤ)
  | none => -1

/-- First element satisfying `p` together with its index (the shape returned
by the repository's find helpers). -/
def findWithIndex {α : Type} (p : α → Bool) : List α → Option (α × Nat)
  | [] => none
  | x :: xs =>
    if p x then some (x, 0)
    else (findWithIndex p xs).map (fun y => (y.1, y.2 + 1))

/-- The resource kinds of `harvest.resource` (`building.types.ts`). -/
inductive ResKind
  | gold
  | wood
  | food
  | plot
deriving DecidableEq

/-- `IBuildingCost` of `building.types.ts`. -/
structure IBuildingCost where
  gold : ℚ
  wood : ℚ
  plot : ℚ
deriving DecidableEq

/-- `IUnitCost` of `unit.types.ts`. -/
structure IUnitCost where
  gold : ℚ
  wood : ℚ
  food : ℚ
deriving DecidableEq

/-- The `harvest` characteristics of a static building. -/
structure IHarvest where
  resource : ResKind
  amount : ℚ
  maxWorkforce : Option Nat
deriving DecidableEq

/-- `IRequiredBuilding` (with the optional `level` field of
`IRequiredBuildingForExtensionLevel`). -/
structure IRequiredBuilding where
  code : String
  upgradeLevel : Option Nat
  level : Option Nat
deriving DecidableEq

/-- One entry of a static building's `upgrades` list. -/
structure IBuildingUpgrade where
  level : Nat
  requiredBuildings : Option (List IRequiredBuilding)
deriving DecidableEq

/-- The `extension` characteristics of a static building. -/
structure IBuildingExtensionInfo where
  requiredBuildings : Option (List IRequiredBuilding)
  maxLevel : Option Nat
deriving DecidableEq

/-- A static (catalog) building, `IBuilding` of `building.types.ts`,
flattening `instantiation`. -/
structure IBuilding where
  code : String
  cost : IBuildingCost
  minWorkforce : Nat
  duration : ℚ
  requiredBuildings : Option (List IRequiredBuilding)
  upgrades : List IBuildingUpgrade
  extensionInfo : Option IBuildingExtensionInfo
  harvest : Option IHarvest
deriving DecidableEq

/-- A static (catalog) unit, `IUnit`, flattening `instantiation`. -/
structure IUnit where
  code : String
  cost : IUnitCost
  duration : ℚ
  requiredBuildings : Option (List IRequiredBuilding)
deriving DecidableEq

/-- `IBuildingImprovementType`. -/
inductive ImprovementType
  | upgrade
  | extension
deriving DecidableEq

/-- The `improvement` tag of an operated construction. -/
structure IImprovement where
  type : ImprovementType
  level : Nat
deriving DecidableEq

/-- `IOperatedConstruction`. -/
structure IOperatedConstruction where
  id : Nat
  beginDate : ℚ
  endDate : ℚ
  workforce : Nat
  improvement : Option IImprovement
deriving DecidableEq

/-- A building instance owned by a garrison. -/
structure IGarrisonBuilding where
  id : Nat
  code : String
  constructions : List IOperatedConstruction
deriving DecidableEq

/-- Assignment types (`instantiation` | `construction` | `harvest`). -/
inductive AssignmentType
  | instantiation
  | construction
  | harvest
deriving DecidableEq

/-- One entry of a garrison unit's `state.assignments`. -/
structure IUnitAssignment where
  buildingId : Option Nat
  quantity : Nat
  type : AssignmentType
  endDate : ℚ
deriving DecidableEq

/-- A unit cohort owned by a garrison. -/
structure IGarrisonUnit where
  code : String
  quantity : Nat
  assignments : List IUnitAssignment
deriving DecidableEq

/-- `IGarrisonResources`: quantities plus the optional accrual timestamps. -/
structure IGarrisonResources where
  gold : ℚ
  wood : ℚ
  food : ℚ
  plot : ℚ
  goldLastUpdate : Option ℚ
  woodLastUpdate : Option ℚ
deriving DecidableEq

/-- The garrison aggregate (the parts the repository operations touch). -/
structure Garrison where
  resources : IGarrisonResources
  buildings : List IGarrisonBuilding
  units : List IGarrisonUnit
deriving DecidableEq

/-- The static catalog and tunable factors the repository consults.
The factor fields stand for the missing helper `getFactor`:
Modelled from the spec: the helper module
`repos/dynamic/garrison/utils/helper.utils.garrison.repo.ts` is not under
`src/`; the spec only calls them "tunable base factors"
(`defaultFactor`, `decreasedFactor`), so they are carried as parameters. -/
structure Statics where
  findBuildingByCode : String → Option IBuilding
  findUnitByCode : String → Option IUnit
  defaultFactor : ℚ
  decreasedFactor : ℚ

/-- `ErrorHandler(status, message)`; only the HTTP status is relevant. -/
structure ErrorHandler where
  status : Nat
deriving DecidableEq

/-- The persisted garrison after an operation: a thrown error never reaches
`garrison.save()`, so the stored aggregate is unchanged. -/
def persist (g : Garrison) : Except ErrorHandler Garrison → Garrison
  | .ok g' => g'
  | .error _ => g

/-- Read a resource quantity by kind (the source's dynamic key access
`garrison.resources[kind]`). -/
def resGet (r : IGarrisonResources) : ResKind → ℚ
  | .gold => r.gold
  | .wood => r.wood
  | .food => r.food
  | .plot => r.plot

/-- Write a resource quantity by kind. -/
def resSet (r : IGarrisonResources) : ResKind → ℚ → IGarrisonResources
  | .gold, v => { r with gold := v }
  | .wood, v => { r with wood := v }
  | .food, v => { r with food := v }
  | .plot, v => { r with plot := v }

/-- `constructions.some(c => c.endDate.getTime() > now.getTime())`. -/
def hasUnexpired (now : ℚ) (cs : List IOperatedConstruction) : Bool :=
  cs.any fun c => decide (now < c.endDate)

/-- The far-future sentinel `new Date('2099-01-01')` used for harvest
assignments, in milliseconds. -/
def farFutureDate : ℚ := 4070908800000

/-- The number of harvest workers of the `peasant` cohort assigned to the
building with id `bid` (`updateResources`, lines 874-887). -/
def assignedHarvestWorkers (units : List IGarrisonUnit) (bid : Nat) : Option Nat :=
  (units.find? fun u => decide (u.code = "peasant")).bind fun u =>
    (u.assignments.find? fun a =>
      decide (a.type = AssignmentType.harvest) && decide (a.buildingId = some bid)).map
      (fun a => a.quantity)

/-- Apply one accrual gain inside `updateResources` (lines 905-915): credit
`Math.floor(amount * elapsedMinutes * assignedWorkers)` to the harvested
resource and refresh the touched timestamp. -/
def applyHarvestGain (res : IGarrisonResources) (h : IHarvest) (w : Nat)
    (elapsedMinutes : ℚ) (goldNew woodNew : Option ℚ) : IGarrisonResources :=
  let gained : ℤ := ⌊h.amount * elapsedMinutes * (w : ℚ)⌋
  let res1 := resSet res h.resource (resGet res h.resource + (gained : ℚ))
  { res1 with
    goldLastUpdate := goldNew <|> res.goldLastUpdate
    woodLastUpdate := woodNew <|> res.woodLastUpdate }

/-- One iteration of the `updateResources` loop (lines 863-916), acting on
the resource accumulator.  A missing catalog entry makes the original code
dereference `undefined` (a thrown `TypeError`), modelled as status 500. -/
def updateResourcesStep (S : Statics) (now : ℚ) (units : List IGarrisonUnit)
    (res : IGarrisonResources) (b : IGarrisonBuilding) :
    Except ErrorHandler IGarrisonResources :=
  match S.findBuildingByCode b.code with
  | none => .error ⟨500⟩
  | some matchStatics =>
    match matchStatics.harvest with
    | none => .ok res
    | some h =>
      if hasUnexpired now b.constructions then .ok res
      else
        match assignedHarvestWorkers units b.id with
        | none => .ok res
        | some w =>
          if w = 0 then .ok res
          else
            if b.code = "goldmine" then
              match res.goldLastUpdate with
              | none => .ok res
              | some t =>
                let elapsedMinutes := (now - t) / 1000 / 60
                if elapsedMinutes = 0 then .ok res
                else .ok (applyHarvestGain res h w elapsedMinutes (some now) none)
            else if b.code = "sawmill" then
              match res.woodLastUpdate with
              | none => .ok res
              | some t =>
                let elapsedMinutes := (now - t) / 1000 / 60
                if elapsedMinutes = 0 then .ok res
                else .ok (applyHarvestGain res h w elapsedMinutes none (some now))
            else .ok res

/-- The `updateResources` loop over the garrison's buildings. -/
def updateResourcesLoop (S : Statics) (now : ℚ) (units : List IGarrisonUnit) :
    IGarrisonResources → List IGarrisonBuilding → Except ErrorHandler IGarrisonResources
  | res, [] => .ok res
  | res, b :: bs =>
    match updateResourcesStep S now units res b with
    | .error e => .error e
    | .ok res' => updateResourcesLoop S now units res' bs

/-- `updateResources` (garrison.repo.ts lines 859-918): accrue harvested
resources for every idle harvest building with assigned workers and an
existing timestamp. -/
def updateResources (S : Statics) (now : ℚ) (g : Garrison) :
    Except ErrorHandler Garrison :=
  match updateResourcesLoop S now g.units g.resources g.buildings with
  | .error e => .error e
  | .ok res => .ok { g with resources := res }

/-- JS `payload.quantity || 1`: an absent quantity and the falsy `0` both
mean one unit. -/
def quantityOrOne : Option Nat → Nat
  | none => 1
  | some 0 => 1
  | some (n + 1) => n + 1

/-- Payload of `addBuilding` (`IBuildingCreate`). -/
structure IBuildingCreate where
  code : String
  workforce : Nat
deriving DecidableEq

/-- Payload of `cancelBuildingConstruction` (`IBuildingConstructionCancel`). -/
structure IBuildingConstructionCancel where
  buildingId : Nat
  constructionId : Nat
deriving DecidableEq

/-- Payload of `upgradeBuilding` / `extendBuilding`
(`IBuildingUpgradeOrExtend`). -/
structure IBuildingUpgradeOrExtend where
  buildingId : Nat
  workforce : Nat
deriving DecidableEq

/-- Payload of `addUnit` (`IUnitCreate`). -/
structure IUnitCreate where
  code : String
  quantity : Option Nat
deriving DecidableEq

/-- Payload of `assignUnit` / `unassignUnit` (`IUnitAssign` /
`IUnitUnassign`). -/
structure IUnitAssign where
  buildingId : Nat
  code : String
  quantity : Option Nat
deriving DecidableEq

/-- Whether one required building is unfulfilled: the inline requirement
walk of `addUnit` (garrison.repo.ts lines 606-623) — missing building,
missing or still-running required upgrade (a falsy `upgradeLevel` skips the
upgrade test), or a still-running instantiation. -/
def requirementUnfulfilledOne (now : ℚ) (buildings : List IGarrisonBuilding)
    (r : IRequiredBuilding) : Bool :=
  match buildings.find? (fun gB => decide (gB.code = r.code)) with
  | none => true
  | some existing =>
    let upgradeFail : Bool :=
      match r.upgradeLevel with
      | none => false
      | some u =>
        if u = 0 then false
        else
          match existing.constructions.find? (fun c =>
            match c.improvement with
            | some imp => decide (u ≤ imp.level)
            | none => false) with
          | none => true
          | some upgraded => decide (now < upgraded.endDate)
    if upgradeFail then true
    else existing.constructions.any fun c =>
      decide (c.improvement = none) && decide (now < c.endDate)

/-- Modelled from the spec: `_gH.checkStandardRequirements` /
`_gH.checkConstructionRequirements` live in the helper module missing from
`src/`; per spec §4.4 every listed requirement must be met, any unmet one
fails the whole validation (PreconditionFailed), mirroring the inline walk
of `addUnit`. -/
def checkStdRequirements (now : ℚ) (rs : List IRequiredBuilding)
    (buildings : List IGarrisonBuilding) : Except ErrorHandler Unit :=
  if rs.any (requirementUnfulfilledOne now buildings) then .error ⟨412⟩
  else .ok ()

/-- Highest `improvement.level` of the given improvement type among a
building's constructions (`extendBuilding` lines 470-474; no completion
filter). -/
def currentMaxLevel (t : ImprovementType) (cs : List IOperatedConstruction) : Nat :=
  (cs.filterMap fun c =>
    match c.improvement with
    | some imp => if imp.type = t then some imp.level else none
    | none => none).foldl (fun prev next => if prev < next then next else prev) 0

/-- Sum of the quantities of not-yet-expired assignments in a list
(`extendBuilding` lines 511-516). -/
def sumUnexpired (now : ℚ) (l : List IUnitAssignment) : ℤ :=
  ((l.filter fun a => decide (now < a.endDate)).foldl
    (fun prev a => prev + a.quantity) (0 : ℤ))

/-- Sum of the quantities of a unit's not-yet-expired assignments. -/
def unexpiredAssigned (now : ℚ) (u : IGarrisonUnit) : ℤ :=
  sumUnexpired now u.assignments

/-- Modelled from the spec:
`_gH.computeConstructionDurationAndWorkforce` is in the helper module
missing from `src/`; per spec §4.2 the duration scales exponentially in the
level and each worker above the (level-scaled) minimum cuts it by a fixed
3%, mirroring the inline factors of `extendBuilding` (1.3 for duration,
2 for the minimum workforce, 0.97 per surplus worker). -/
def computeConstructionDuration (workforce : Nat) (sb : IBuilding)
    (level : Nat) : ℚ :=
  let minW : Nat := sb.minWorkforce * 2 ^ level
  ((jsRound (sb.duration * (13/10) ^ level) : ℚ)) *
    (97/100) ^ ((workforce : ℤ) - (minW : ℤ))

/-- Modelled from the spec: `_gH.checkWorkforceCoherence` is in the helper
module missing from `src/`; per spec §4.2/§7 the workforce must not exceed
the owned peasants (InvalidArgument), must be idle-available
(PreconditionFailed), and must lie between the level-scaled minimum and its
double (InvalidArgument), mirroring the inline checks of `extendBuilding`
(lines 508-522). -/
def checkWorkforceCoherence (now : ℚ) (workforce : Nat)
    (peasants : IGarrisonUnit) (sb : IBuilding)
    (improvement : Option (ImprovementType × List IOperatedConstruction)) :
    Except ErrorHandler Unit :=
  let level : Nat :=
    match improvement with
    | none => 0
    | some (t, cs) => currentMaxLevel t cs + 1
  let minW : Nat := sb.minWorkforce * 2 ^ level
  if peasants.quantity < workforce then .error ⟨400⟩
  else if ((peasants.quantity : ℤ) - unexpiredAssigned now peasants) < (workforce : ℤ) then
    .error ⟨412⟩
  else if workforce < minW then .error ⟨400⟩
  else if minW * 2 < workforce then .error ⟨400⟩
  else .ok ()

/-- Modelled from the spec: `_gH.checkConstructionPaymentCapacity` is in
the helper module missing from `src/`; per spec §4.2 the debited cost is
the static cost for an instantiation and, for an improvement, the static
cost scaled by `defaultFactor^level` (gold/wood) and
`decreasedFactor^level` (plot), where the level is read off the (already
appended) improvement constructions; insufficient resources are a
PreconditionFailed. -/
def checkConstructionPaymentCapacity (S : Statics) (res : IGarrisonResources)
    (cost : IBuildingCost)
    (improvement : Option (ImprovementType × List IOperatedConstruction)) :
    Except ErrorHandler IGarrisonResources :=
  let scaled : ℚ × ℚ × ℚ :=
    match improvement with
    | none => (cost.gold, cost.wood, cost.plot)
    | some (t, cs) =>
      let level := currentMaxLevel t cs
      (cost.gold * S.defaultFactor ^ level,
       cost.wood * S.defaultFactor ^ level,
       cost.plot * S.decreasedFactor ^ level)
  if res.gold - scaled.1 < 0 ∨ res.wood - scaled.2.1 < 0 ∨ res.plot - scaled.2.2 < 0 then
    .error ⟨412⟩
  else
    .ok { res with
      gold := res.gold - scaled.1
      wood := res.wood - scaled.2.1
      plot := res.plot - scaled.2.2 }

/-- Modelled from the spec: `_gH.checkBuildingImprovable` is in the helper
module missing from `src/`; per spec §4.2 the next level is
`currentMaxLevel + 1` and the operation is rejected when no upgrade is
defined at that level. -/
def checkBuildingImprovable (b : IGarrisonBuilding) (sb : IBuilding) :
    Except ErrorHandler IBuildingUpgrade :=
  let next := currentMaxLevel ImprovementType.upgrade b.constructions + 1
  match sb.upgrades.find? (fun up => decide (up.level = next)) with
  | none => .error ⟨412⟩
  | some up => .ok up

/-- `addBuilding` (garrison.repo.ts lines 150-238).  `bid` and `cid` are
the fresh `ObjectId`s created for the new building and its construction. -/
def addBuilding (S : Statics) (now : ℚ) (bid cid : Nat) (g : Garrison)
    (p : IBuildingCreate) : Except ErrorHandler Garrison :=
  match S.findBuildingByCode p.code with
  | none => .error ⟨404⟩
  | some staticBuilding =>
    match findWithIndex (fun u => decide (u.code = "peasant")) g.units with
    | none => .error ⟨404⟩
    | some (peasants, pIdx) =>
      match checkWorkforceCoherence now p.workforce peasants staticBuilding none with
      | .error e => .error e
      | .ok _ =>
        match (match staticBuilding.requiredBuildings with
               | some rs => checkStdRequirements now rs g.buildings
               | none => .ok ()) with
        | .error e => .error e
        | .ok _ =>
          let duration := computeConstructionDuration p.workforce staticBuilding 0
          let endDate := now + duration * 1000
          let construction : IOperatedConstruction := ⟨cid, now, endDate, p.workforce, none⟩
          let g1 : Garrison :=
            { g with buildings := g.buildings ++ [⟨bid, p.code, [construction]⟩] }
          match updateResources S now g1 with
          | .error e => .error e
          | .ok g2 =>
            match checkConstructionPaymentCapacity S g2.resources staticBuilding.cost none with
            | .error e => .error e
            | .ok res =>
              let res2 :=
                match staticBuilding.harvest with
                | some h =>
                  if h.maxWorkforce = none then
                    resSet res h.resource (resGet res h.resource + h.amount)
                  else res
                | none => res
              let units' := g2.units.set pIdx
                { peasants with assignments :=
                    peasants.assignments ++ [⟨some bid, p.workforce, .construction, endDate⟩] }
              .ok { g2 with resources := res2, units := units' }

/-- The refund triple computed by `cancelBuildingConstruction` for an
improvement (garrison.repo.ts lines 259-265).  All three scaled values are
assigned to the variable `gold` in the source, so the refunded amounts are
`(plot·decreasedFactor^level, wood, plot)`. -/
def improvementRefund (S : Statics) (cost : IBuildingCost) (level : Nat) :
    ℚ × ℚ × ℚ :=
  (cost.plot * S.decreasedFactor ^ level, cost.wood, cost.plot)

/-- The harvest block of `cancelBuildingConstruction` (lines 284-305).
The source's `switch (typeof harvest.maxWorkforce)` compares the *string*
returned by `typeof` with the *value* `undefined`, so its `case undefined`
arm (the prorated gift-yield debit) is unreachable; only the
`case 'number'` arm — deleting the resource timestamp when a building of
the same code still exists — can run. -/
def cancelHarvestTimestampAdjust (sb : IBuilding)
    (buildings' : List IGarrisonBuilding) (res : IGarrisonResources) :
    IGarrisonResources :=
  match sb.harvest with
  | some h =>
    match h.maxWorkforce with
    | some _ =>
      if buildings'.any (fun b => decide (b.code = sb.code)) then
        match h.resource with
        | .gold => { res with goldLastUpdate := none }
        | .wood => { res with woodLastUpdate := none }
        | _ => res
      else res
    | none => res
  | none => res

/-- `cancelBuildingConstruction` (garrison.repo.ts lines 244-329). -/
def cancelBuildingConstruction (S : Statics) (g : Garrison)
    (p : IBuildingConstructionCancel) : Except ErrorHandler Garrison :=
  match findWithIndex (fun b => decide (b.id = p.buildingId)) g.buildings with
  | none => .error ⟨404⟩
  | some (building, bIndex) =>
    match S.findBuildingByCode building.code with
    | none => .error ⟨404⟩
    | some staticBuilding =>
      match findWithIndex (fun c => decide (c.id = p.constructionId)) building.constructions with
      | none => .error ⟨404⟩
      | some (_, cIndex) =>
        let cost := staticBuilding.cost
        let improvement : Option IImprovement :=
          match building.constructions.get? cIndex with
          | some c => c.improvement
          | none => none
        let refund : ℚ × ℚ × ℚ :=
          match improvement with
          | some imp => improvementRefund S cost imp.level
          | none => (cost.gold, cost.wood, cost.plot)
        let newConstructions := jsSpliceRemoveOne building.constructions (cIndex : ℤ)
        let buildings' :=
          match improvement with
          | some _ => g.buildings.set bIndex { building with constructions := newConstructions }
          | none => jsSpliceRemoveOne g.buildings (bIndex : ℤ)
        let res1 :=
          { g.resources with
            gold := g.resources.gold + refund.1
            wood := g.resources.wood + refund.2.1
            plot := g.resources.plot + refund.2.2 }
        let res2 := cancelHarvestTimestampAdjust staticBuilding buildings' res1
        let targetConstructions :=
          match improvement with
          | some _ => newConstructions
          | none => building.constructions
        match findWithIndex (fun u => decide (u.code = "peasant")) g.units with
        | none => .error ⟨404⟩
        | some (peasants, pIdx) =>
          let aIndex : ℤ :=
            match targetConstructions.get? cIndex with
            | some c => jsFindIndex (fun a => decide (a.endDate = c.endDate)) peasants.assignments
            | none => -1
          let units' := g.units.set pIdx
            { peasants with assignments := jsSpliceRemoveOne peasants.assignments aIndex }
          .ok { resources := res2, buildings := buildings', units := units' }

/-- `upgradeBuilding` (garrison.repo.ts lines 335-442).  `cid` is the fresh
id of the new improvement construction. -/
def upgradeBuilding (S : Statics) (now : ℚ) (cid : Nat) (g : Garrison)
    (p : IBuildingUpgradeOrExtend) : Except ErrorHandler Garrison :=
  match findWithIndex (fun b => decide (b.id = p.buildingId)) g.buildings with
  | none => .error ⟨404⟩
  | some (building, bIndex) =>
    match S.findBuildingByCode building.code with
    | none => .error ⟨404⟩
    | some staticBuilding =>
      if hasUnexpired now building.constructions then .error ⟨412⟩
      else
        match checkBuildingImprovable building staticBuilding with
        | .error e => .error e
        | .ok nextUpgrade =>
          match (match nextUpgrade.requiredBuildings with
                 | some rs => checkStdRequirements now rs g.buildings
                 | none => .ok ()) with
          | .error e => .error e
          | .ok _ =>
            let duration := computeConstructionDuration p.workforce staticBuilding nextUpgrade.level
            match findWithIndex (fun u => decide (u.code = "peasant")) g.units with
            | none => .error ⟨404⟩
            | some (peasants, pIdx) =>
              match checkWorkforceCoherence now p.workforce peasants staticBuilding
                  (some (.upgrade, building.constructions)) with
              | .error e => .error e
              | .ok _ =>
                let endDate := now + duration * 1000
                let construction : IOperatedConstruction :=
                  ⟨cid, now, endDate, p.workforce, some ⟨.upgrade, nextUpgrade.level⟩⟩
                let building' := { building with constructions := building.constructions ++ [construction] }
                let g1 := { g with buildings := g.buildings.set bIndex building' }
                match updateResources S now g1 with
                | .error e => .error e
                | .ok g2 =>
                  match checkConstructionPaymentCapacity S g2.resources staticBuilding.cost
                      (some (.upgrade, building'.constructions)) with
                  | .error e => .error e
                  | .ok res =>
                    let res2 :=
                      match staticBuilding.harvest with
                      | some h =>
                        if h.maxWorkforce = none then
                          resSet res h.resource
                            (resGet res h.resource + ((⌊h.amount * (6/5) ^ nextUpgrade.level⌋ : ℤ) : ℚ))
                        else res
                      | none => res
                    let units' := g2.units.set pIdx
                      { peasants with assignments :=
                          peasants.assignments ++ [⟨some building.id, p.workforce, .construction, endDate⟩] }
                    .ok { g2 with resources := res2, units := units' }

/-- Whether one required building is unfulfilled for an extension
(`extendBuilding` lines 481-498): like `requirementUnfulfilledOne`, except
the upgrade test additionally requires `level === currentLevel + 1`. -/
def extendRequirementUnfulfilledOne (now : ℚ) (currentLevel : Nat)
    (buildings : List IGarrisonBuilding) (r : IRequiredBuilding) : Bool :=
  match buildings.find? (fun gB => decide (gB.code = r.code)) with
  | none => true
  | some existing =>
    let upgradeFail : Bool :=
      match r.upgradeLevel with
      | none => false
      | some u =>
        if u = 0 then false
        else if r.level = some (currentLevel + 1) then
          match existing.constructions.find? (fun c =>
            match c.improvement with
            | some imp => decide (u ≤ imp.level)
            | none => false) with
          | none => true
          | some upgraded => decide (now < upgraded.endDate)
        else false
    if upgradeFail then true
    else existing.constructions.any fun c =>
      decide (c.improvement = none) && decide (now < c.endDate)

/-- `extendBuilding` (garrison.repo.ts lines 444-591, the inline variant).
Faithful details: a missing `extension.maxLevel` lets the level check pass
(a JS comparison with `undefined` is false); the appended construction and
the peasant assignment use the *unfloored* discounted duration
(`newDuration`, the floored variable is never used again); the new
construction is appended to every garrison building whose `code` equals
the static building's code; `updateResources` is never called. -/
def extendBuilding (S : Statics) (now : ℚ) (cid : Nat) (g : Garrison)
    (p : IBuildingUpgradeOrExtend) : Except ErrorHandler Garrison :=
  match findWithIndex (fun b => decide (b.id = p.buildingId)) g.buildings with
  | none => .error ⟨404⟩
  | some (garrBuilding, _) =>
    match S.findBuildingByCode garrBuilding.code with
    | none => .error ⟨404⟩
    | some building =>
      match building.extensionInfo with
      | none => .error ⟨412⟩
      | some ext =>
        if hasUnexpired now garrBuilding.constructions then .error ⟨412⟩
        else
          let currentLevel := currentMaxLevel ImprovementType.extension garrBuilding.constructions
          let tooHigh : Bool :=
            match ext.maxLevel with
            | some m => decide (m < currentLevel + 1)
            | none => false
          if tooHigh then .error ⟨400⟩
          else
            let unfulfilled : Bool :=
              match ext.requiredBuildings with
              | some rs => rs.any (extendRequirementUnfulfilledOne now currentLevel g.buildings)
              | none => false
            if unfulfilled then .error ⟨412⟩
            else
              let duration0 : ℤ := jsRound (building.duration * (13/10) ^ (currentLevel + 1))
              let minWorkforce : Nat := building.minWorkforce * 2 ^ (currentLevel + 1)
              match findWithIndex (fun u => decide (u.code = "peasant")) g.units with
              | none => .error ⟨404⟩
              | some (peasants, pIdx) =>
                if peasants.quantity < p.workforce then .error ⟨400⟩
                else if ((peasants.quantity : ℤ) - unexpiredAssigned now peasants) < (p.workforce : ℤ) then
                  .error ⟨412⟩
                else if p.workforce < minWorkforce then .error ⟨400⟩
                else if minWorkforce * 2 < p.workforce then .error ⟨400⟩
                else
                  let newDuration : ℚ :=
                    (duration0 : ℚ) * (97/100) ^ ((p.workforce : ℤ) - (minWorkforce : ℤ))
                  let endDate := now + newDuration * 1000
                  let constructed : IOperatedConstruction :=
                    ⟨cid, now, endDate, p.workforce, some ⟨.extension, currentLevel + 1⟩⟩
                  let buildings' := g.buildings.map fun b =>
                    if b.code = building.code then
                      { b with constructions := b.constructions ++ [constructed] }
                    else b
                  let goldCost : ℤ := jsRound (building.cost.gold * (8/5) ^ (currentLevel + 1))
                  let woodCost : ℤ := jsRound (building.cost.wood * (8/5) ^ (currentLevel + 1))
                  let plotCost : ℤ := jsRound ((building.cost.plot / 2) * (3/2) ^ (currentLevel + 1))
                  if g.resources.gold - goldCost < 0 ∨ g.resources.wood - woodCost < 0 ∨
                      g.resources.plot - plotCost < 0 then .error ⟨412⟩
                  else
                    let res1 :=
                      { g.resources with
                        gold := g.resources.gold - goldCost
                        wood := g.resources.wood - woodCost
                        plot := g.resources.plot - plotCost }
                    let res2 :=
                      match building.harvest with
                      | some h =>
                        if h.maxWorkforce = none then
                          resSet res1 h.resource
                            (resGet res1 h.resource + ((⌊h.amount * (6/5) ^ (currentLevel + 1)⌋ : ℤ) : ℚ))
                        else res1
                      | none => res1
                    let units' := g.units.set pIdx
                      { peasants with assignments :=
                          peasants.assignments ++ [⟨some garrBuilding.id, p.workforce, .construction, endDate⟩] }
                    .ok { resources := res2, buildings := buildings', units := units' }

/-- The inline requirement walk of `addUnit` (lines 606-624). -/
def addUnitUnfulfilled (now : ℚ) (g : Garrison) (staticUnit : IUnit) : Bool :=
  match staticUnit.requiredBuildings with
  | none => false
  | some rs => rs.any (requirementUnfulfilledOne now g.buildings)

/-- The training-assignment loop of `addUnit` (lines 627-637): each pushed
assignment chains its `endDate` off the previously pushed one (off `now`
for the first). -/
def pushTraining (d : ℚ) (now : ℚ) : Nat → List IUnitAssignment → List IUnitAssignment
  | 0, acc => acc
  | n + 1, acc =>
    let base : ℚ :=
      match acc.getLast? with
      | some a => a.endDate
      | none => now
    pushTraining d now n (acc ++ [⟨none, 1, .instantiation, base + d * 1000⟩])

/-- Merge the freshly trained cohort into the garrison's unit list
(`addUnit` lines 639-664). -/
def insertNewUnit (g : Garrison) (code : String) (n : Nat)
    (asgs : List IUnitAssignment) : Garrison :=
  match findWithIndex (fun u => decide (u.code = code)) g.units with
  | none => { g with units := g.units ++ [⟨code, n, asgs⟩] }
  | some (u, idx) =>
    { g with units := g.units.set idx ⟨u.code, u.quantity + n, u.assignments ++ asgs⟩ }

/-- `addUnit` (garrison.repo.ts lines 593-689). -/
def addUnit (S : Statics) (now : ℚ) (g : Garrison) (p : IUnitCreate) :
    Except ErrorHandler Garrison :=
  match S.findUnitByCode p.code with
  | none => .error ⟨404⟩
  | some staticUnit =>
    if addUnitUnfulfilled now g staticUnit then .error ⟨412⟩
    else
      let n := quantityOrOne p.quantity
      let assignments := pushTraining staticUnit.duration now n []
      let g1 := insertNewUnit g staticUnit.code n assignments
      match updateResources S now g1 with
      | .error e => .error e
      | .ok g2 =>
        let goldCost := staticUnit.cost.gold * n
        let woodCost := staticUnit.cost.wood * n
        let foodCost := staticUnit.cost.food * n
        if g2.resources.gold - goldCost < 0 ∨ g2.resources.wood - woodCost < 0 ∨
            g2.resources.food - foodCost < 0 then .error ⟨412⟩
        else
          .ok { g2 with resources :=
            { g2.resources with
              gold := g2.resources.gold - goldCost
              wood := g2.resources.wood - woodCost
              food := g2.resources.food - foodCost } }

/-- The in-memory aggregate of `addUnit` at the moment the resource check
runs (garrison.repo.ts line 667, right after the unit list has been merged
and the accrual has refreshed the resources, and right before the cost
comparison of lines 669-675). -/
def addUnitPreCheckState (S : Statics) (now : ℚ) (g : Garrison)
    (p : IUnitCreate) : Except ErrorHandler Garrison :=
  match S.findUnitByCode p.code with
  | none => .error ⟨404⟩
  | some staticUnit =>
    if addUnitUnfulfilled now g staticUnit then .error ⟨412⟩
    else
      let n := quantityOrOne p.quantity
      updateResources S now
        (insertNewUnit g staticUnit.code n (pushTraining staticUnit.duration now n []))

/-- The assignment loop of `assignUnit` (lines 740-755): push a fresh
harvest assignment of quantity 1 when none exists for the building,
increment it otherwise, repeated `quantity` times. -/
def assignHarvestLoop (bid : Nat) : Nat → List IUnitAssignment → List IUnitAssignment
  | 0, l => l
  | n + 1, l =>
    match l.findIdx? (fun a =>
        decide (a.buildingId = some bid) && decide (a.type = AssignmentType.harvest)) with
    | none => assignHarvestLoop bid n (l ++ [⟨some bid, 1, .harvest, farFutureDate⟩])
    | some i =>
      match l.get? i with
      | some a => assignHarvestLoop bid n (l.set i { a with quantity := a.quantity + 1 })
      | none => assignHarvestLoop bid n l

/-- `assignUnit` (garrison.repo.ts lines 691-777). -/
def assignUnit (S : Statics) (now : ℚ) (g : Garrison) (p : IUnitAssign) :
    Except ErrorHandler Garrison :=
  match findWithIndex (fun b => decide (b.id = p.buildingId)) g.buildings with
  | none => .error ⟨404⟩
  | some (garrBuilding, _) =>
    match S.findBuildingByCode garrBuilding.code with
    | none => .error ⟨404⟩
    | some building =>
      match building.harvest with
      | none => .error ⟨400⟩
      | some _ =>
        match S.findUnitByCode p.code with
        | none => .error ⟨404⟩
        | some unit =>
          match findWithIndex (fun u => decide (u.code = p.code)) g.units with
          | none => .error ⟨404⟩
          | some (garrUnits, uIdx) =>
            if garrUnits.quantity < quantityOrOne p.quantity then .error ⟨412⟩
            else if hasUnexpired now garrBuilding.constructions then .error ⟨412⟩
            else if ((garrUnits.quantity : ℤ) - unexpiredAssigned now garrUnits) <
                (quantityOrOne p.quantity : ℤ) then .error ⟨412⟩
            else
              match (if unit.code = "peasant" then updateResources S now g else .ok g) with
              | .error e => .error e
              | .ok gU =>
                let newAssignments :=
                  assignHarvestLoop garrBuilding.id (quantityOrOne p.quantity) garrUnits.assignments
                let units' := gU.units.set uIdx { garrUnits with assignments := newAssignments }
                let res' :=
                  if building.code = "goldmine" then
                    match gU.resources.goldLastUpdate with
                    | none => { gU.resources with goldLastUpdate := some now }
                    | some _ => gU.resources
                  else if building.code = "sawmill" then
                    match gU.resources.woodLastUpdate with
                    | none => { gU.resources with woodLastUpdate := some now }
                    | some _ => gU.resources
                  else gU.resources
                .ok { gU with resources := res', units := units' }

/-- Whether at least one harvest assignment of this unit still points at
some garrison building of the given code (`unassignUnit` lines 833-838). -/
def someHarvestOnCode (assignments : List IUnitAssignment)
    (buildings : List IGarrisonBuilding) (code : String) : Bool :=
  assignments.any fun a =>
    decide (a.type = AssignmentType.harvest) &&
      buildings.any fun b => decide (b.id ∈ a.buildingId) && decide (b.code = code)

/-- `unassignUnit` (garrison.repo.ts lines 779-857). -/
def unassignUnit (S : Statics) (now : ℚ) (g : Garrison) (p : IUnitAssign) :
    Except ErrorHandler Garrison :=
  match findWithIndex (fun b => decide (b.id = p.buildingId)) g.buildings with
  | none => .error ⟨404⟩
  | some (garrBuilding, _) =>
    match S.findBuildingByCode garrBuilding.code with
    | none => .error ⟨404⟩
    | some building =>
      match building.harvest with
      | none => .error ⟨400⟩
      | some _ =>
        match S.findUnitByCode p.code with
        | none => .error ⟨404⟩
        | some unit =>
          match findWithIndex (fun u => decide (u.code = p.code)) g.units with
          | none => .error ⟨404⟩
          | some (garrUnits, uIdx) =>
            match garrUnits.assignments.findIdx? (fun a =>
                decide (a.buildingId = some garrBuilding.id) &&
                  decide (a.type = AssignmentType.harvest)) with
            | none => .error ⟨404⟩
            | some aIdx =>
              match garrUnits.assignments.get? aIdx with
              | none => .error ⟨404⟩
              | some assignment =>
                if assignment.quantity < quantityOrOne p.quantity then .error ⟨412⟩
                else
                  match (if unit.code = "peasant" then updateResources S now g else .ok g) with
                  | .error e => .error e
                  | .ok gU =>
                    let q' := assignment.quantity - quantityOrOne p.quantity
                    let newAssignments :=
                      if q' = 0 then jsSpliceRemoveOne garrUnits.assignments (aIdx : ℤ)
                      else garrUnits.assignments.set aIdx { assignment with quantity := q' }
                    let res' :=
                      if building.code = "goldmine" then
                        if someHarvestOnCode newAssignments g.buildings building.code then
                          gU.resources
                        else { gU.resources with goldLastUpdate := none }
                      else if building.code = "sawmill" then
                        if someHarvestOnCode newAssignments g.buildings building.code then
                          gU.resources
                        else { gU.resources with woodLastUpdate := none }
                      else gU.resources
                    let units' := gU.units.set uIdx { garrUnits with assignments := newAssignments }
                    .ok { gU with resources := res', units := units' }

/-- The garrison created by `create` (garrison.repo.ts lines 120-143):
seeded resources and one starter cohort of three peasants. -/
def initialGarrison : Garrison :=
  { resources := ⟨625, 320, 3, 32, none, none⟩
    buildings := []
    units := [⟨"peasant", 3, []⟩] }

/-- One exposed mutating operation with its payload (the fresh ids an
operation would draw are carried alongside). -/
inductive GarrisonOp
  | addBuildingOp (p : IBuildingCreate) (bid cid : Nat)
  | cancelOp (p : IBuildingConstructionCancel)
  | upgradeOp (p : IBuildingUpgradeOrExtend) (cid : Nat)
  | extendOp (p : IBuildingUpgradeOrExtend) (cid : Nat)
  | addUnitOp (p : IUnitCreate)
  | assignOp (p : IUnitAssign)
  | unassignOp (p : IUnitAssign)

/-- Dispatch one operation at wall-clock instant `now`. -/
def applyOp (S : Statics) (now : ℚ) (g : Garrison) :
    GarrisonOp → Except ErrorHandler Garrison
  | .addBuildingOp p bid cid => addBuilding S now bid cid g p
  | .cancelOp p => cancelBuildingConstruction S g p
  | .upgradeOp p cid => upgradeBuilding S now cid g p
  | .extendOp p cid => extendBuilding S now cid g p
  | .addUnitOp p => addUnit S now g p
  | .assignOp p => assignUnit S now g p
  | .unassignOp p => unassignUnit S now g p

/-- The persisted garrison after one operation (an error leaves it). -/
def persistOp (S : Statics) (now : ℚ) (g : Garrison) (op : GarrisonOp) : Garrison :=
  persist g (applyOp S now g op)

/-- Run a timestamped operation sequence against the persisted garrison. -/
def runOps (S : Statics) : Garrison → List (ℚ × GarrisonOp) → Garrison
  | g, [] => g
  | g, (t, op) :: rest => runOps S (persistOp S t g op) rest

/-! ## General lemmas about the embedding -/

theorem findWithIndex_get {α : Type} (p : α → Bool) (l : List α) (x : α) (i : Nat)
    (h : findWithIndex p l = some (x, i)) : l.get? i = some x ∧ p x = true := by
  induction l generalizing x i with
  | nil => simp [findWithIndex] at h
  | cons a as ih =>
    by_cases hp : p a = true
    · simp only [findWithIndex, if_pos hp] at h
      injection h with h2
      cases h2
      simpa using hp
    · simp only [findWithIndex, if_neg hp] at h
      cases hfw : findWithIndex p as with
      | none => rw [hfw] at h; cases h
      | some y =>
        rw [hfw] at h
        simp only [Option.map_some'] at h
        injection h with h2
        obtain ⟨x', j⟩ := y
        cases h2
        obtain ⟨h1, h2⟩ := ih x' j hfw
        exact ⟨by simpa using h1, h2⟩

theorem updateResources_ok_parts (S : Statics) (now : ℚ) (g g' : Garrison)
    (h : updateResources S now g = .ok g') :
    g'.buildings = g.buildings ∧ g'.units = g.units := by
  unfold updateResources at h
  cases hl : updateResourcesLoop S now g.units g.resources g.buildings with
  | error e => rw [hl] at h; cases h
  | ok res => rw [hl] at h; cases h; exact ⟨rfl, rfl⟩

/-- A building that the `updateResources` loop skips for reasons that do not
depend on the evolving resource accumulator: present in the catalog but
without a harvest capability, or currently busy, or without assigned harvest
workers, or neither a goldmine nor a sawmill. -/
def statelessSkipB (S : Statics) (now : ℚ) (units : List IGarrisonUnit)
    (b : IGarrisonBuilding) : Bool :=
  match S.findBuildingByCode b.code with
  | none => false
  | some sb =>
    decide (sb.harvest = none) || hasUnexpired now b.constructions ||
    (match assignedHarvestWorkers units b.id with
     | none => true
     | some w => decide (w = 0)) ||
    (decide (b.code ≠ "goldmine") && decide (b.code ≠ "sawmill"))

/-- A building that the `updateResources` loop skips given the current
resource accumulator: a stateless skip, or a missing accrual timestamp, or
zero elapsed minutes. -/
def stepSkipB (S : Statics) (now : ℚ) (units : List IGarrisonUnit)
    (res : IGarrisonResources) (b : IGarrisonBuilding) : Bool :=
  match S.findBuildingByCode b.code with
  | none => false
  | some sb =>
    decide (sb.harvest = none) || hasUnexpired now b.constructions ||
    (match assignedHarvestWorkers units b.id with
     | none => true
     | some w => decide (w = 0)) ||
    (if b.code = "goldmine" then
      decide (res.goldLastUpdate = none) || decide (res.goldLastUpdate = some now)
     else if b.code = "sawmill" then
      decide (res.woodLastUpdate = none) || decide (res.woodLastUpdate = some now)
     else true)

theorem statelessSkipB_stepSkipB (S : Statics) (now : ℚ) (units : List IGarrisonUnit)
    (res : IGarrisonResources) (b : IGarrisonBuilding)
    (h : statelessSkipB S now units b = true) :
    stepSkipB S now units res b = true := by
  unfold statelessSkipB at h
  unfold stepSkipB
  cases hS : S.findBuildingByCode b.code with
  | none => rw [hS] at h; cases h
  | some sb =>
    rw [hS] at h
    simp only [Bool.or_eq_true, Bool.and_eq_true, decide_eq_true_eq] at h ⊢
    rcases h with ((h | h) | h) | ⟨h1, h2⟩
    · exact Or.inl (Or.inl (Or.inl h))
    · exact Or.inl (Or.inl (Or.inr h))
    · exact Or.inl (Or.inr h)
    · simp [h1, h2]

theorem updateResourcesStep_skip (S : Statics) (now : ℚ) (units : List IGarrisonUnit)
    (res : IGarrisonResources) (b : IGarrisonBuilding)
    (h : stepSkipB S now units res b = true) :
    updateResourcesStep S now units res b = .ok res := by
  rcases hS : S.findBuildingByCode b.code with _ | sb
  · simp [stepSkipB, hS] at h
  rcases hh : sb.harvest with _ | hv
  · simp [updateResourcesStep, hS, hh]
  cases hb : hasUnexpired now b.constructions
  case true => simp [updateResourcesStep, hS, hh, hb]
  rcases hw : assignedHarvestWorkers units b.id with _ | w
  · simp [updateResourcesStep, hS, hh, hb, hw]
  by_cases hw0 : w = 0
  · simp [updateResourcesStep, hS, hh, hb, hw, hw0]
  simp only [stepSkipB, hS, hh, hb, hw, Bool.or_eq_true, Bool.and_eq_true,
    decide_eq_true_eq, Option.some_ne_none, false_or, Bool.false_eq_true, or_false,
    reduceCtorEq] at h
  rcases h with h | h
  · exact absurd h hw0
  by_cases hg : b.code = "goldmine"
  · have hS' : S.findBuildingByCode "goldmine" = some sb := hg ▸ hS
    rw [if_pos hg] at h
    simp only [Bool.or_eq_true, decide_eq_true_eq] at h
    rcases h with h | h
    · simp [updateResourcesStep, hS, hS', hh, hb, hw, hw0, hg, h]
    · simp [updateResourcesStep, hS, hS', hh, hb, hw, hw0, hg, h]
  by_cases hsw : b.code = "sawmill"
  · have hS' : S.findBuildingByCode "sawmill" = some sb := hsw ▸ hS
    rw [if_neg hg, if_pos hsw] at h
    simp only [Bool.or_eq_true, decide_eq_true_eq] at h
    rcases h with h | h
    · simp [updateResourcesStep, hS, hS', hh, hb, hw, hw0, hg, hsw, h]
    · simp [updateResourcesStep, hS, hS', hh, hb, hw, hw0, hg, hsw, h]
  simp [updateResourcesStep, hS, hh, hb, hw, hw0, hg, hsw]

theorem updateResourcesLoop_skip (S : Statics) (now : ℚ) (units : List IGarrisonUnit)
    (bs : List IGarrisonBuilding) (res : IGarrisonResources)
    (h : ∀ b ∈ bs, stepSkipB S now units res b = true) :
    updateResourcesLoop S now units res bs = .ok res := by
  induction bs with
  | nil => rfl
  | cons b rest ih =>
    have hb := h b (List.mem_cons_self b rest)
    unfold updateResourcesLoop
    rw [updateResourcesStep_skip S now units res b hb]
    exact ih fun b' hb' => h b' (List.mem_cons_of_mem b hb')

theorem updateResourcesLoop_append (S : Statics) (now : ℚ) (units : List IGarrisonUnit)
    (l1 l2 : List IGarrisonBuilding) (res : IGarrisonResources) :
    updateResourcesLoop S now units res (l1 ++ l2) =
      match updateResourcesLoop S now units res l1 with
      | .error e => .error e
      | .ok r => updateResourcesLoop S now units r l2 := by
  induction l1 generalizing res with
  | nil => simp [updateResourcesLoop]
  | cons b bs ih =>
    simp only [List.cons_append, updateResourcesLoop]
    rcases hstep : updateResourcesStep S now units res b with e | r
    · rfl
    · exact ih r

theorem resSet_resGet (r : IGarrisonResources) (k : ResKind) :
    resSet r k (resGet r k) = r := by
  cases k <;> rfl

theorem resSet_goldLastUpdate (r : IGarrisonResources) (k : ResKind) (v : ℚ) :
    (resSet r k v).goldLastUpdate = r.goldLastUpdate := by
  cases k <;> rfl

theorem resSet_woodLastUpdate (r : IGarrisonResources) (k : ResKind) (v : ℚ) :
    (resSet r k v).woodLastUpdate = r.woodLastUpdate := by
  cases k <;> rfl

theorem updateResourcesStep_goldmine (S : Statics) (now : ℚ)
    (units : List IGarrisonUnit) (res : IGarrisonResources)
    (b : IGarrisonBuilding) (sb : IBuilding) (hv : IHarvest) (w : Nat) (t : ℚ)
    (hS : S.findBuildingByCode b.code = some sb) (hh : sb.harvest = some hv)
    (hb : hasUnexpired now b.constructions = false)
    (hw : assignedHarvestWorkers units b.id = some w) (hw0 : w ≠ 0)
    (hg : b.code = "goldmine") (ht : res.goldLastUpdate = some t) (hne : now ≠ t) :
    updateResourcesStep S now units res b =
      .ok (applyHarvestGain res hv w ((now - t) / 1000 / 60) (some now) none) := by
  have hS' : S.findBuildingByCode "goldmine" = some sb := hg ▸ hS
  have hdz : ((now - t) / 1000 / 60 : ℚ) ≠ 0 := by
    rw [div_div, div_ne_zero_iff]
    exact ⟨sub_ne_zero.mpr hne, by norm_num⟩
  simp [updateResourcesStep, hS, hS', hh, hb, hw, hw0, hg, ht, hdz]

theorem updateResourcesStep_sawmill (S : Statics) (now : ℚ)
    (units : List IGarrisonUnit) (res : IGarrisonResources)
    (b : IGarrisonBuilding) (sb : IBuilding) (hv : IHarvest) (w : Nat) (t : ℚ)
    (hS : S.findBuildingByCode b.code = some sb) (hh : sb.harvest = some hv)
    (hb : hasUnexpired now b.constructions = false)
    (hw : assignedHarvestWorkers units b.id = some w) (hw0 : w ≠ 0)
    (hg : b.code = "sawmill") (ht : res.woodLastUpdate = some t) (hne : now ≠ t) :
    updateResourcesStep S now units res b =
      .ok (applyHarvestGain res hv w ((now - t) / 1000 / 60) none (some now)) := by
  have hS' : S.findBuildingByCode "sawmill" = some sb := hg ▸ hS
  have hgold : b.code ≠ "goldmine" := by rw [hg]; decide
  have hdz : ((now - t) / 1000 / 60 : ℚ) ≠ 0 := by
    rw [div_div, div_ne_zero_iff]
    exact ⟨sub_ne_zero.mpr hne, by norm_num⟩
  simp [updateResourcesStep, hS, hS', hh, hb, hw, hw0, hg, hgold, ht, hdz]

theorem updateResources_skip_all (S : Statics) (now : ℚ) (g : Garrison)
    (h : ∀ b ∈ g.buildings, stepSkipB S now g.units g.resources b = true) :
    updateResources S now g = .ok g := by
  unfold updateResources
  rw [updateResourcesLoop_skip S now g.units g.buildings g.resources h]

theorem applyHarvestGain_goldLastUpdate_some (res : IGarrisonResources)
    (hv : IHarvest) (w : Nat) (e : ℚ) (now : ℚ) :
    (applyHarvestGain res hv w e (some now) none).goldLastUpdate = some now := by
  simp [applyHarvestGain]

theorem applyHarvestGain_woodLastUpdate_some (res : IGarrisonResources)
    (hv : IHarvest) (w : Nat) (e : ℚ) (now : ℚ) :
    (applyHarvestGain res hv w e none (some now)).woodLastUpdate = some now := by
  simp [applyHarvestGain]

/-- C1 (amended).  For a garrison whose building list contains exactly one
accrual-eligible building (every other building is skipped for a reason
independent of the resource state: no harvest capability, busy, no assigned
harvest workers, or not a goldmine/sawmill), one call of `updateResources`
adds exactly `floor(amount × ((now − t)/60000) × workers)` to the harvested
resource and resets that resource's timestamp to `now`
(`applyHarvestGain`), and a second call at the same instant changes
nothing; and whenever every building is skipped (no harvest capability,
busy, no workers, missing timestamp, or zero elapsed time), the call
changes nothing at all.  The original claim, quantified over *every*
qualifying building, fails when two same-resource buildings qualify in one
call: the first one processed resets the shared timestamp, so the second
accrues nothing (see the counterexample). -/
theorem C1_updateResources_accrual :
    (∀ (S : Statics) (now : ℚ) (g : Garrison) (pre post : List IGarrisonBuilding)
      (b : IGarrisonBuilding) (sb : IBuilding) (hv : IHarvest) (w : Nat) (t : ℚ),
      g.buildings = pre ++ b :: post →
      (∀ b' ∈ pre, statelessSkipB S now g.units b' = true) →
      (∀ b' ∈ post, statelessSkipB S now g.units b' = true) →
      S.findBuildingByCode b.code = some sb → sb.harvest = some hv →
      hasUnexpired now b.constructions = false →
      assignedHarvestWorkers g.units b.id = some w → w ≠ 0 →
      b.code = "goldmine" → g.resources.goldLastUpdate = some t →
      updateResources S now g =
          .ok { g with resources :=
            applyHarvestGain g.resources hv w ((now - t) / 60000) (some now) none } ∧
        updateResources S now
            { g with resources :=
              applyHarvestGain g.resources hv w ((now - t) / 60000) (some now) none } =
          .ok { g with resources :=
            applyHarvestGain g.resources hv w ((now - t) / 60000) (some now) none }) ∧
    (∀ (S : Statics) (now : ℚ) (g : Garrison) (pre post : List IGarrisonBuilding)
      (b : IGarrisonBuilding) (sb : IBuilding) (hv : IHarvest) (w : Nat) (t : ℚ),
      g.buildings = pre ++ b :: post →
      (∀ b' ∈ pre, statelessSkipB S now g.units b' = true) →
      (∀ b' ∈ post, statelessSkipB S now g.units b' = true) →
      S.findBuildingByCode b.code = some sb → sb.harvest = some hv →
      hasUnexpired now b.constructions = false →
      assignedHarvestWorkers g.units b.id = some w → w ≠ 0 →
      b.code = "sawmill" → g.resources.woodLastUpdate = some t →
      updateResources S now g =
          .ok { g with resources :=
            applyHarvestGain g.resources hv w ((now - t) / 60000) none (some now) } ∧
        updateResources S now
            { g with resources :=
              applyHarvestGain g.resources hv w ((now - t) / 60000) none (some now) } =
          .ok { g with resources :=
            applyHarvestGain g.resources hv w ((now - t) / 60000) none (some now) }) ∧
    (∀ (S : Statics) (now : ℚ) (g : Garrison),
      (∀ b ∈ g.buildings, stepSkipB S now g.units g.resources b = true) →
      updateResources S now g = .ok g) := by
  have harg : ∀ now t : ℚ, (now - t) / 1000 / 60 = (now - t) / 60000 := by
    intro now t
    rw [div_div]
    norm_num
  have hmem : ∀ (pre post : List IGarrisonBuilding) (b b' : IGarrisonBuilding),
      b' ∈ pre ++ b :: post → b' ∈ pre ∨ b' = b ∨ b' ∈ post := by
    intro pre post b b' hb'
    rcases List.mem_append.mp hb' with h | h
    · exact Or.inl h
    · rcases List.mem_cons.mp h with h | h
      · exact Or.inr (Or.inl h)
      · exact Or.inr (Or.inr h)
  refine ⟨?_, ?_, ?_⟩
  · intro S now g pre post b sb hv w t hsplit hpre hpost hS hh hb hw hw0 hg ht
    have hS' : S.findBuildingByCode "goldmine" = some sb := by
      rw [← hg]; exact hS
    by_cases hne : now = t
    · subst hne
      have hzero : applyHarvestGain g.resources hv w ((now - now) / 60000) (some now) none
          = g.resources := by
        simp only [applyHarvestGain, sub_self, zero_div, mul_zero, zero_mul,
          Int.floor_zero, Int.cast_zero, add_zero, resSet_resGet,
          Option.some_orElse, Option.none_orElse]
        rw [← ht]
      rw [hzero]
      have hall : ∀ b' ∈ g.buildings, stepSkipB S now g.units g.resources b' = true := by
        intro b' hb'
        rw [hsplit] at hb'
        rcases hmem pre post b b' hb' with h | h | h
        · exact statelessSkipB_stepSkipB S now g.units g.resources b' (hpre b' h)
        · subst h
          simp [stepSkipB, hS, hS', hh, hg, ht]
        · exact statelessSkipB_stepSkipB S now g.units g.resources b' (hpost b' h)
      exact ⟨updateResources_skip_all S now g hall, updateResources_skip_all S now g hall⟩
    · have hstep := updateResourcesStep_goldmine S now g.units g.resources b sb hv w t
        hS hh hb hw hw0 hg ht hne
      have hloop : updateResourcesLoop S now g.units g.resources (pre ++ b :: post) =
          .ok (applyHarvestGain g.resources hv w ((now - t) / 1000 / 60) (some now) none) := by
        rw [updateResourcesLoop_append,
          updateResourcesLoop_skip S now g.units pre g.resources
            (fun b' h => statelessSkipB_stepSkipB S now g.units g.resources b' (hpre b' h))]
        show updateResourcesLoop S now g.units g.resources (b :: post) = _
        unfold updateResourcesLoop
        rw [hstep]
        exact updateResourcesLoop_skip S now g.units post _
          (fun b' h => statelessSkipB_stepSkipB S now g.units _ b' (hpost b' h))
      have hrun : updateResources S now g =
          .ok { g with resources :=
            applyHarvestGain g.resources hv w ((now - t) / 60000) (some now) none } := by
        unfold updateResources
        rw [hsplit, hloop, harg]
      refine ⟨hrun, ?_⟩
      apply updateResources_skip_all
      intro b' hb'
      rcases hmem pre post b b' (hsplit ▸ hb') with h | h | h
      · exact statelessSkipB_stepSkipB S now _ _ b' (hpre b' h)
      · subst h
        simp [stepSkipB, hS, hS', hh, hg, applyHarvestGain_goldLastUpdate_some]
      · exact statelessSkipB_stepSkipB S now _ _ b' (hpost b' h)
  · intro S now g pre post b sb hv w t hsplit hpre hpost hS hh hb hw hw0 hg ht
    have hS' : S.findBuildingByCode "sawmill" = some sb := by
      rw [← hg]; exact hS
    have hgold : b.code ≠ "goldmine" := by rw [hg]; decide
    by_cases hne : now = t
    · subst hne
      have hzero : applyHarvestGain g.resources hv w ((now - now) / 60000) none (some now)
          = g.resources := by
        simp only [applyHarvestGain, sub_self, zero_div, mul_zero, zero_mul,
          Int.floor_zero, Int.cast_zero, add_zero, resSet_resGet,
          Option.some_orElse, Option.none_orElse]
        rw [← ht]
      rw [hzero]
      have hall : ∀ b' ∈ g.buildings, stepSkipB S now g.units g.resources b' = true := by
        intro b' hb'
        rw [hsplit] at hb'
        rcases hmem pre post b b' hb' with h | h | h
        · exact statelessSkipB_stepSkipB S now g.units g.resources b' (hpre b' h)
        · subst h
          simp [stepSkipB, hS, hS', hh, hg, hgold, ht]
        · exact statelessSkipB_stepSkipB S now g.units g.resources b' (hpost b' h)
      exact ⟨updateResources_skip_all S now g hall, updateResources_skip_all S now g hall⟩
    · have hstep := updateResourcesStep_sawmill S now g.units g.resources b sb hv w t
        hS hh hb hw hw0 hg ht hne
      have hloop : updateResourcesLoop S now g.units g.resources (pre ++ b :: post) =
          .ok (applyHarvestGain g.resources hv w ((now - t) / 1000 / 60) none (some now)) := by
        rw [updateResourcesLoop_append,
          updateResourcesLoop_skip S now g.units pre g.resources
            (fun b' h => statelessSkipB_stepSkipB S now g.units g.resources b' (hpre b' h))]
        show updateResourcesLoop S now g.units g.resources (b :: post) = _
        unfold updateResourcesLoop
        rw [hstep]
        exact updateResourcesLoop_skip S now g.units post _
          (fun b' h => statelessSkipB_stepSkipB S now g.units _ b' (hpost b' h))
      have hrun : updateResources S now g =
          .ok { g with resources :=
            applyHarvestGain g.resources hv w ((now - t) / 60000) none (some now) } := by
        unfold updateResources
        rw [hsplit, hloop, harg]
      refine ⟨hrun, ?_⟩
      apply updateResources_skip_all
      intro b' hb'
      rcases hmem pre post b b' (hsplit ▸ hb') with h | h | h
      · exact statelessSkipB_stepSkipB S now _ _ b' (hpre b' h)
      · subst h
        simp [stepSkipB, hS, hS', hh, hg, hgold, applyHarvestGain_woodLastUpdate_some]
      · exact statelessSkipB_stepSkipB S now _ _ b' (hpost b' h)
  · intro S now g h
    exact updateResources_skip_all S now g h

/-- Catalog fixture: a goldmine yielding 5 gold per worker per minute. -/
def goldmineC1 : IBuilding :=
  { code := "goldmine", cost := ⟨100, 50, 5⟩, minWorkforce := 1, duration := 60,
    requiredBuildings := none, upgrades := [], extensionInfo := none,
    harvest := some ⟨ResKind.gold, 5, some 10⟩ }

/-- Statics fixture exposing only the goldmine. -/
def staticsC1 : Statics :=
  { findBuildingByCode := fun c => if c = "goldmine" then some goldmineC1 else none
    findUnitByCode := fun _ => none
    defaultFactor := 8/5
    decreasedFactor := 3/2 }

/-- Garrison fixture with *two* completed goldmines, 2 and 1 harvest
peasants, a gold timestamp at the epoch, queried one minute later. -/
def garrC1 : Garrison :=
  { resources := ⟨0, 0, 0, 0, some 0, none⟩
    buildings := [⟨1, "goldmine", []⟩, ⟨2, "goldmine", []⟩]
    units := [⟨"peasant", 3,
      [⟨some 1, 2, .harvest, farFutureDate⟩, ⟨some 2, 1, .harvest, farFutureDate⟩]⟩] }

/-- Garrison fixture with a *single* completed goldmine and 2 harvest
peasants. -/
def garrC1w : Garrison :=
  { resources := ⟨0, 0, 0, 0, some 0, none⟩
    buildings := [⟨1, "goldmine", []⟩]
    units := [⟨"peasant", 3, [⟨some 1, 2, .harvest, farFutureDate⟩]⟩] }

/-- C1 counterexample.  In `garrC1` both goldmines satisfy every
precondition of the claim (static harvest capability, no unexpired
construction, a positive assigned workforce, an existing gold timestamp),
yet one call of `updateResources` credits only the first one's
`floor(5 × 1 × 2) = 10` gold: processing the first goldmine resets
`goldLastUpdate` to `now`, so the second (1 worker, claimed gain 5) adds
nothing — the call yields 10 gold, not 10 + 5, refuting the claim at the
second building. -/
theorem C1_counterexample :
    ¬ (∀ (b : IGarrisonBuilding) (sb : IBuilding) (hv : IHarvest) (w : Nat) (t : ℚ)
        (g' : Garrison),
        b ∈ garrC1.buildings →
        staticsC1.findBuildingByCode b.code = some sb → sb.harvest = some hv →
        hasUnexpired 60000 b.constructions = false →
        assignedHarvestWorkers garrC1.units b.id = some w → 0 < w →
        garrC1.resources.goldLastUpdate = some t → hv.resource = ResKind.gold →
        updateResources staticsC1 60000 garrC1 = .ok g' →
        g'.resources.gold =
          garrC1.resources.gold + ((⌊hv.amount * ((60000 - t) / 60000) * (w : ℚ)⌋ : ℤ) : ℚ)) := by
  intro hclaim
  have heval : updateResources staticsC1 60000 garrC1 =
      .ok { garrC1 with resources := ⟨10, 0, 0, 0, some 60000, none⟩ } := by
    norm_num [updateResources, updateResourcesLoop, updateResourcesStep, staticsC1,
      garrC1, goldmineC1, assignedHarvestWorkers, hasUnexpired, applyHarvestGain,
      resGet, resSet, farFutureDate, List.find?]
  have h2 := hclaim ⟨2, "goldmine", []⟩ goldmineC1 ⟨ResKind.gold, 5, some 10⟩ 1 0
    { garrC1 with resources := ⟨10, 0, 0, 0, some 60000, none⟩ }
    (by norm_num [garrC1]) (by norm_num [staticsC1]) (by norm_num [goldmineC1])
    (by norm_num [hasUnexpired])
    (by norm_num [assignedHarvestWorkers, garrC1, List.find?]) (by norm_num)
    (by norm_num [garrC1]) rfl heval
  norm_num [garrC1] at h2

/-- C1 witness: a single qualifying goldmine with 2 workers and one minute
of elapsed time accrues exactly `floor(5 × 1 × 2) = 10` gold and refreshes
the timestamp. -/
theorem C1_witness :
    updateResources staticsC1 60000 garrC1w =
      .ok { garrC1w with resources := ⟨10, 0, 0, 0, some 60000, none⟩ } := by
  have h := (C1_updateResources_accrual.1 staticsC1 60000 garrC1w [] []
    ⟨1, "goldmine", []⟩ goldmineC1 ⟨ResKind.gold, 5, some 10⟩ 2 0 rfl
    (by simp) (by simp) (by norm_num [staticsC1]) (by norm_num [goldmineC1])
    (by norm_num [hasUnexpired])
    (by norm_num [assignedHarvestWorkers, garrC1w, List.find?]) (by norm_num)
    rfl (by norm_num [garrC1w])).1
  rw [h]
  norm_num [applyHarvestGain, resGet, resSet, garrC1w]

/-- The refund triple for an improvement cancellation as computed by the
second copy of the repository (`src/unnamed/part_002`, lines 263-265),
which assigns each scaled value to its own variable:
`(gold·defaultFactor^level, wood·defaultFactor^level,
plot·decreasedFactor^level)`. -/
def improvementRefundFixed (S : Statics) (cost : IBuildingCost) (level : Nat) :
    ℚ × ℚ × ℚ :=
  (cost.gold * S.defaultFactor ^ level, cost.wood * S.defaultFactor ^ level,
   cost.plot * S.decreasedFactor ^ level)

/-- Catalog fixture: a plain (non-harvest) building with instantiation cost
gold 100, wood 50, plot 5. -/
def barracksC2 : IBuilding :=
  { code := "barracks", cost := ⟨100, 50, 5⟩, minWorkforce := 1, duration := 60,
    requiredBuildings := none, upgrades := [⟨1, none⟩], extensionInfo := none,
    harvest := none }

/-- Statics fixture exposing the barracks, with `defaultFactor = 1.6` and
`decreasedFactor = 1.5` (the factor pair the inline `extendBuilding` cost
scaling uses). -/
def staticsC2 : Statics :=
  { findBuildingByCode := fun c => if c = "barracks" then some barracksC2 else none
    findUnitByCode := fun _ => none
    defaultFactor := 8/5
    decreasedFactor := 3/2 }

/-- Garrison fixture: one barracks with its finished instantiation
construction (id 10) and a pending level-1 upgrade construction (id 11). -/
def garrC2 : Garrison :=
  { resources := ⟨0, 0, 0, 0, none, none⟩
    buildings := [⟨1, "barracks",
      [⟨10, 0, 50, 1, none⟩, ⟨11, 100, 200, 1, some ⟨.upgrade, 1⟩⟩]⟩]
    units := [⟨"peasant", 3, [⟨some 1, 1, .construction, 200⟩]⟩] }

/-- C2: cancelling the level-1 improvement construction credits
`(plot·1.5, wood, plot) = (7.5, 50, 5)` — the source assigns all three
scaled refund values to the variable `gold` — instead of the claimed
`(gold·1.6, wood·1.6, plot·1.5) = (160, 80, 7.5)` computed by the fixed
copy in `part_002`; only that one construction is removed. -/
theorem C2_cancel_refund_bug :
    cancelBuildingConstruction staticsC2 garrC2 ⟨1, 11⟩ =
      .ok { resources := ⟨15/2, 50, 0, 5, none, none⟩,
            buildings := [⟨1, "barracks", [⟨10, 0, 50, 1, none⟩]⟩],
            units := [⟨"peasant", 3, []⟩] } ∧
    improvementRefund staticsC2 ⟨100, 50, 5⟩ 1 = (15/2, 50, 5) ∧
    improvementRefundFixed staticsC2 ⟨100, 50, 5⟩ 1 = (160, 80, 15/2) := by
  refine ⟨?_, ?_, ?_⟩
  · norm_num [cancelBuildingConstruction, staticsC2, garrC2, barracksC2,
      findWithIndex, improvementRefund, cancelHarvestTimestampAdjust,
      jsSpliceRemoveOne, jsFindIndex, List.findIdx?]
  · norm_num [improvementRefund, staticsC2]
  · norm_num [improvementRefundFixed, staticsC2]

/-- C3: a building with an unexpired construction (its `endDate` strictly
after `now`) makes any `upgradeBuilding`, `extendBuilding` (on an
extendable static) or `assignUnit` (on a harvest static with an existing
unit) request fail with PreconditionFailed (412), leaving the persisted
garrison unchanged. -/
theorem C3_busy_building_rejects :
    (∀ (S : Statics) (now : ℚ) (cid : Nat) (g : Garrison) (p : IBuildingUpgradeOrExtend)
      (b : IGarrisonBuilding) (i : Nat) (sb : IBuilding),
      findWithIndex (fun b' => decide (b'.id = p.buildingId)) g.buildings = some (b, i) →
      S.findBuildingByCode b.code = some sb →
      hasUnexpired now b.constructions = true →
      upgradeBuilding S now cid g p = .error ⟨412⟩ ∧
        persist g (upgradeBuilding S now cid g p) = g) ∧
    (∀ (S : Statics) (now : ℚ) (cid : Nat) (g : Garrison) (p : IBuildingUpgradeOrExtend)
      (b : IGarrisonBuilding) (i : Nat) (sb : IBuilding) (ext : IBuildingExtensionInfo),
      findWithIndex (fun b' => decide (b'.id = p.buildingId)) g.buildings = some (b, i) →
      S.findBuildingByCode b.code = some sb →
      sb.extensionInfo = some ext →
      hasUnexpired now b.constructions = true →
      extendBuilding S now cid g p = .error ⟨412⟩ ∧
        persist g (extendBuilding S now cid g p) = g) ∧
    (∀ (S : Statics) (now : ℚ) (g : Garrison) (p : IUnitAssign)
      (b : IGarrisonBuilding) (i : Nat) (sb : IBuilding) (hv : IHarvest)
      (su : IUnit) (gu : IGarrisonUnit) (j : Nat),
      findWithIndex (fun b' => decide (b'.id = p.buildingId)) g.buildings = some (b, i) →
      S.findBuildingByCode b.code = some sb →
      sb.harvest = some hv →
      S.findUnitByCode p.code = some su →
      findWithIndex (fun u => decide (u.code = p.code)) g.units = some (gu, j) →
      hasUnexpired now b.constructions = true →
      assignUnit S now g p = .error ⟨412⟩ ∧
        persist g (assignUnit S now g p) = g) := by
  refine ⟨?_, ?_, ?_⟩
  · intro S now cid g p b i sb hfind hS hb
    have h1 : upgradeBuilding S now cid g p = .error ⟨412⟩ := by
      simp [upgradeBuilding, hfind, hS, hb]
    exact ⟨h1, by rw [h1]; rfl⟩
  · intro S now cid g p b i sb ext hfind hS hext hb
    have h1 : extendBuilding S now cid g p = .error ⟨412⟩ := by
      simp [extendBuilding, hfind, hS, hext, hb]
    exact ⟨h1, by rw [h1]; rfl⟩
  · intro S now g p b i sb hv su gu j hfind hS hharv hsu hgu hb
    have h1 : assignUnit S now g p = .error ⟨412⟩ := by
      by_cases hq : gu.quantity < quantityOrOne p.quantity
      · simp [assignUnit, hfind, hS, hharv, hsu, hgu, hq]
      · simp [assignUnit, hfind, hS, hharv, hsu, hgu, hq, hb]
    exact ⟨h1, by rw [h1]; rfl⟩

/-- Catalog fixture for C3: a harvest + extendable + upgradable building. -/
def mineC3 : IBuilding :=
  { code := "mine3", cost := ⟨10, 10, 1⟩, minWorkforce := 1, duration := 60,
    requiredBuildings := none, upgrades := [⟨1, none⟩],
    extensionInfo := some ⟨none, some 5⟩,
    harvest := some ⟨ResKind.gold, 5, some 10⟩ }

/-- Static unit fixture for C3. -/
def peasantC3 : IUnit :=
  { code := "peasant", cost := ⟨10, 0, 1⟩, duration := 10, requiredBuildings := none }

/-- Statics fixture for C3. -/
def staticsC3 : Statics :=
  { findBuildingByCode := fun c => if c = "mine3" then some mineC3 else none
    findUnitByCode := fun c => if c = "peasant" then some peasantC3 else none
    defaultFactor := 8/5
    decreasedFactor := 3/2 }

/-- Garrison fixture for C3: the mine's instantiation runs until t=100000,
queried at t=50. -/
def garrC3 : Garrison :=
  { resources := ⟨625, 320, 3, 32, none, none⟩
    buildings := [⟨1, "mine3", [⟨10, 0, 100000, 2, none⟩]⟩]
    units := [⟨"peasant", 3, []⟩] }

/-- C3 witness: at t=50 the busy mine rejects all three operations with
status 412. -/
theorem C3_witness :
    upgradeBuilding staticsC3 50 99 garrC3 ⟨1, 2⟩ = .error ⟨412⟩ ∧
    extendBuilding staticsC3 50 99 garrC3 ⟨1, 2⟩ = .error ⟨412⟩ ∧
    assignUnit staticsC3 50 garrC3 ⟨1, "peasant", some 1⟩ = .error ⟨412⟩ := by
  refine ⟨?_, ?_, ?_⟩
  · exact (C3_busy_building_rejects.1 staticsC3 50 99 garrC3 ⟨1, 2⟩
      ⟨1, "mine3", [⟨10, 0, 100000, 2, none⟩]⟩ 0 mineC3
      (by norm_num [findWithIndex, garrC3]) (by norm_num [staticsC3])
      (by norm_num [hasUnexpired])).1
  · exact (C3_busy_building_rejects.2.1 staticsC3 50 99 garrC3 ⟨1, 2⟩
      ⟨1, "mine3", [⟨10, 0, 100000, 2, none⟩]⟩ 0 mineC3 ⟨none, some 5⟩
      (by norm_num [findWithIndex, garrC3]) (by norm_num [staticsC3])
      (by norm_num [mineC3]) (by norm_num [hasUnexpired])).1
  · exact (C3_busy_building_rejects.2.2 staticsC3 50 garrC3 ⟨1, "peasant", some 1⟩
      ⟨1, "mine3", [⟨10, 0, 100000, 2, none⟩]⟩ 0 mineC3 ⟨ResKind.gold, 5, some 10⟩
      peasantC3 ⟨"peasant", 3, []⟩ 0
      (by norm_num [findWithIndex, garrC3]) (by norm_num [staticsC3])
      (by norm_num [mineC3]) (by norm_num [staticsC3])
      (by norm_num [findWithIndex, garrC3]) (by norm_num [hasUnexpired])).1

/-- Total owned quantity of a unit code in a garrison (0 when the cohort
does not exist yet). -/
def unitQuantity (g : Garrison) (code : String) : Nat :=
  match g.units.find? (fun u => decide (u.code = code)) with
  | some u => u.quantity
  | none => 0

/-- Idle availability of a unit code: total quantity minus the quantities
of unexpired assignments (the recurring accounting of the repository,
e.g. `extendBuilding` lines 511-517, `assignUnit` lines 726-732). -/
def idleAvailable (g : Garrison) (code : String) (now : ℚ) : ℤ :=
  match g.units.find? (fun u => decide (u.code = code)) with
  | some u => (u.quantity : ℤ) - unexpiredAssigned now u
  | none => 0

theorem find?_of_findWithIndex {α : Type} (p : α → Bool) (l : List α) (x : α) (i : Nat)
    (h : findWithIndex p l = some (x, i)) : l.find? p = some x := by
  induction l generalizing x i with
  | nil => simp [findWithIndex] at h
  | cons a as ih =>
    by_cases hp : p a = true
    · simp only [findWithIndex, if_pos hp] at h
      injection h with h2
      cases h2
      simp [List.find?_cons_of_pos _ hp]
    · simp only [findWithIndex, if_neg hp] at h
      cases hfw : findWithIndex p as with
      | none => rw [hfw] at h; cases h
      | some y =>
        rw [hfw] at h
        simp only [Option.map_some'] at h
        injection h with h2
        obtain ⟨x', j⟩ := y
        cases h2
        rw [List.find?_cons_of_neg _ (by simpa using hp)]
        exact ih x' j hfw

theorem find?_of_findWithIndex_none {α : Type} (p : α → Bool) (l : List α)
    (h : findWithIndex p l = none) : l.find? p = none := by
  induction l with
  | nil => rfl
  | cons a as ih =>
    by_cases hp : p a = true
    · simp [findWithIndex, hp] at h
    · simp only [findWithIndex, if_neg hp, Option.map_eq_none'] at h
      rw [List.find?_cons_of_neg _ (by simpa using hp)]
      exact ih h

theorem find?_append_of_none {α : Type} (p : α → Bool) (l1 l2 : List α)
    (h : l1.find? p = none) : (l1 ++ l2).find? p = l2.find? p := by
  induction l1 with
  | nil => rfl
  | cons a as ih =>
    rw [List.find?_cons] at h
    rcases hp : p a with _ | _
    · rw [hp] at h
      rw [List.cons_append, List.find?_cons, hp]
      exact ih h
    · rw [hp] at h; cases h

theorem find?_set_first {α : Type} (p : α → Bool) (l : List α) (x : α) (i : Nat)
    (v : α) (h : findWithIndex p l = some (x, i)) (hv : p v = true) :
    (l.set i v).find? p = some v := by
  induction l generalizing x i with
  | nil => simp [findWithIndex] at h
  | cons a as ih =>
    by_cases hp : p a = true
    · simp only [findWithIndex, if_pos hp] at h
      injection h with h2
      cases h2
      simp [List.set, List.find?_cons_of_pos _ hv]
    · simp only [findWithIndex, if_neg hp] at h
      cases hfw : findWithIndex p as with
      | none => rw [hfw] at h; cases h
      | some y =>
        rw [hfw] at h
        simp only [Option.map_some'] at h
        injection h with h2
        obtain ⟨x', j⟩ := y
        cases h2
        rw [List.set_cons_succ, List.find?_cons_of_neg _ (by simpa using hp)]
        exact ih x' j hfw

theorem foldl_addq_shift (l : List IUnitAssignment) (s : ℤ) :
    l.foldl (fun prev a => prev + (a.quantity : ℤ)) s =
      s + l.foldl (fun prev a => prev + (a.quantity : ℤ)) 0 := by
  induction l generalizing s with
  | nil => simp
  | cons a as ih =>
    simp only [List.foldl_cons]
    rw [ih (s + a.quantity), ih ((0 : ℤ) + a.quantity)]
    ring

theorem sumUnexpired_append (now : ℚ) (l1 l2 : List IUnitAssignment) :
    sumUnexpired now (l1 ++ l2) = sumUnexpired now l1 + sumUnexpired now l2 := by
  unfold sumUnexpired
  rw [List.filter_append, List.foldl_append, foldl_addq_shift]

theorem sumUnexpired_all_unexpired_ones (now : ℚ) (l : List IUnitAssignment)
    (h : ∀ a ∈ l, a.quantity = 1 ∧ now < a.endDate) :
    sumUnexpired now l = l.length := by
  induction l with
  | nil => rfl
  | cons a as ih =>
    obtain ⟨h1, h2⟩ := h a (List.mem_cons_self a as)
    unfold sumUnexpired
    rw [List.filter_cons_of_pos (by simpa using h2), List.foldl_cons, foldl_addq_shift]
    have := ih fun a' ha' => h a' (List.mem_cons_of_mem a ha')
    unfold sumUnexpired at this
    rw [this]
    simp [h1]
    ring

/-- The chain of assignments an `addUnit` training loop builds: `n`
`instantiation` assignments of quantity 1, each ending one training
duration (in milliseconds) after the previous one. -/
def trainingChain (d : ℚ) : ℚ → Nat → List IUnitAssignment
  | _, 0 => []
  | base, n + 1 =>
    ⟨none, 1, .instantiation, base + d * 1000⟩ :: trainingChain d (base + d * 1000) n

theorem pushTraining_chain (d now : ℚ) (n : Nat) (acc : List IUnitAssignment) (base : ℚ)
    (hbase : (match acc.getLast? with
              | some a => a.endDate
              | none => now) = base) :
    pushTraining d now n acc = acc ++ trainingChain d base n := by
  induction n generalizing acc base with
  | zero => simp [pushTraining, trainingChain]
  | succ m ih =>
    unfold pushTraining
    rw [hbase]
    show pushTraining d now m
        (acc ++ [⟨none, 1, .instantiation, base + d * 1000⟩]) =
      acc ++ trainingChain d base (m + 1)
    have hlast : (match (acc ++
        [(⟨none, 1, .instantiation, base + d * 1000⟩ : IUnitAssignment)]).getLast? with
        | some a => a.endDate
        | none => now) = base + d * 1000 := by
      rw [List.getLast?_concat]
    rw [ih _ _ hlast]
    simp [trainingChain]

theorem trainingChain_length (d : ℚ) (base : ℚ) (n : Nat) :
    (trainingChain d base n).length = n := by
  induction n generalizing base with
  | zero => rfl
  | succ m ih => simp [trainingChain, ih]

theorem trainingChain_get? (d : ℚ) (base : ℚ) (n i : Nat) (h : i < n) :
    (trainingChain d base n).get? i =
      some ⟨none, 1, .instantiation, base + ((i : ℚ) + 1) * (d * 1000)⟩ := by
  induction n generalizing base i with
  | zero => exact absurd h (Nat.not_lt_zero i)
  | succ m ih =>
    cases i with
    | zero => simp [trainingChain]
    | succ j =>
      have hj : j < m := Nat.lt_of_succ_lt_succ h
      simp only [trainingChain, List.get?_cons_succ]
      rw [ih (base + d * 1000) j hj]
      congr 2
      push_cast
      ring

theorem trainingChain_mem (d : ℚ) (base : ℚ) (n : Nat) (hd : 0 < d)
    (a : IUnitAssignment) (ha : a ∈ trainingChain d base n) :
    a.quantity = 1 ∧ a.type = .instantiation ∧ base < a.endDate := by
  induction n generalizing base with
  | zero => simp [trainingChain] at ha
  | succ m ih =>
    simp only [trainingChain, List.mem_cons] at ha
    rcases ha with ha | ha
    · subst ha
      refine ⟨rfl, rfl, ?_⟩
      have : 0 < d * 1000 := by positivity
      simp only []
      linarith
    · obtain ⟨h1, h2, h3⟩ := ih (base + d * 1000) ha
      refine ⟨h1, h2, ?_⟩
      have : 0 < d * 1000 := by positivity
      linarith

theorem unitQuantity_congr_units (g1 g2 : Garrison) (code : String)
    (h : g1.units = g2.units) : unitQuantity g1 code = unitQuantity g2 code := by
  unfold unitQuantity
  rw [h]

theorem idleAvailable_congr_units (g1 g2 : Garrison) (code : String) (now : ℚ)
    (h : g1.units = g2.units) : idleAvailable g1 code now = idleAvailable g2 code now := by
  unfold idleAvailable
  rw [h]

theorem insertNewUnit_unitQuantity (g : Garrison) (code : String) (n : Nat)
    (asgs : List IUnitAssignment) :
    unitQuantity (insertNewUnit g code n asgs) code = unitQuantity g code + n := by
  unfold insertNewUnit unitQuantity
  cases hfw : findWithIndex (fun u => decide (u.code = code)) g.units with
  | none =>
    have hnone := find?_of_findWithIndex_none _ _ hfw
    rw [hnone]
    simp only []
    rw [find?_append_of_none _ _ _ hnone]
    simp [List.find?]
  | some y =>
    obtain ⟨u, idx⟩ := y
    have hfind := find?_of_findWithIndex _ _ _ _ hfw
    have hpu : decide (u.code = code) = true := (findWithIndex_get _ _ _ _ hfw).2
    have hset := find?_set_first (fun u' => decide (u'.code = code)) g.units u idx
      ⟨u.code, u.quantity + n, u.assignments ++ asgs⟩ hfw (by simpa using hpu)
    rw [hfind]
    simp only []
    rw [hset]

theorem insertNewUnit_idleAvailable (g : Garrison) (code : String) (n : Nat)
    (asgs : List IUnitAssignment) (now : ℚ)
    (hq : ∀ a ∈ asgs, a.quantity = 1 ∧ now < a.endDate) (hlen : asgs.length = n) :
    idleAvailable (insertNewUnit g code n asgs) code now =
      idleAvailable g code now := by
  have hsum : sumUnexpired now asgs = (n : ℤ) := by
    rw [sumUnexpired_all_unexpired_ones now asgs hq, hlen]
  unfold insertNewUnit idleAvailable
  cases hfw : findWithIndex (fun u => decide (u.code = code)) g.units with
  | none =>
    have hnone := find?_of_findWithIndex_none _ _ hfw
    rw [hnone]
    simp only []
    rw [find?_append_of_none _ _ _ hnone]
    simp only [List.find?, decide_eq_true_eq, decide_True, if_pos rfl]
    simp [unexpiredAssigned, hsum]
  | some y =>
    obtain ⟨u, idx⟩ := y
    have hfind := find?_of_findWithIndex _ _ _ _ hfw
    have hpu : decide (u.code = code) = true := (findWithIndex_get _ _ _ _ hfw).2
    have hset := find?_set_first (fun u' => decide (u'.code = code)) g.units u idx
      ⟨u.code, u.quantity + n, u.assignments ++ asgs⟩ hfw (by simpa using hpu)
    rw [hfind]
    simp only []
    rw [hset]
    simp only [unexpiredAssigned, sumUnexpired_append, hsum]
    push_cast
    ring

/-- C4: a successful `addUnit` of batch size `N = quantity || 1` (with
per-unit duration `d > 0`) creates exactly the chain of `N` sequential
`instantiation` assignments of quantity 1 — the `i`-th ending at
`now + (i+1)·d·1000` ms, so the batch completes at `now + N·d·1000` —
increments the owned quantity by `N`, and leaves the idle availability at
`now` unchanged. -/
theorem C4_addUnit_batch :
    ∀ (S : Statics) (now : ℚ) (g : Garrison) (p : IUnitCreate) (su : IUnit)
      (g' : Garrison),
      S.findUnitByCode p.code = some su → 0 < su.duration →
      addUnit S now g p = .ok g' →
      pushTraining su.duration now (quantityOrOne p.quantity) [] =
        trainingChain su.duration now (quantityOrOne p.quantity) ∧
      1 ≤ quantityOrOne p.quantity ∧
      (∀ i < quantityOrOne p.quantity,
        (trainingChain su.duration now (quantityOrOne p.quantity)).get? i =
          some ⟨none, 1, .instantiation,
            now + ((i : ℚ) + 1) * (su.duration * 1000)⟩) ∧
      (trainingChain su.duration now (quantityOrOne p.quantity)).get?
          (quantityOrOne p.quantity - 1) =
        some ⟨none, 1, .instantiation,
          now + (quantityOrOne p.quantity : ℚ) * (su.duration * 1000)⟩ ∧
      unitQuantity g' su.code = unitQuantity g su.code + quantityOrOne p.quantity ∧
      idleAvailable g' su.code now = idleAvailable g su.code now := by
  intro S now g p su g' hsu hd hok
  have hone : 1 ≤ quantityOrOne p.quantity := by
    unfold quantityOrOne
    rcases p.quantity with _ | n
    · exact le_refl 1
    · rcases n with _ | m
      · exact le_refl 1
      · exact Nat.succ_le_succ (Nat.zero_le m)
  have hchain : pushTraining su.duration now (quantityOrOne p.quantity) [] =
      trainingChain su.duration now (quantityOrOne p.quantity) := by
    rw [pushTraining_chain su.duration now _ [] now rfl]
    rfl
  refine ⟨hchain, hone, ?_, ?_, ?_, ?_⟩
  · intro i hi
    exact trainingChain_get? su.duration now _ i hi
  · have hlt : quantityOrOne p.quantity - 1 < quantityOrOne p.quantity :=
      Nat.sub_lt (Nat.lt_of_lt_of_le Nat.zero_lt_one hone) Nat.zero_lt_one
    rw [trainingChain_get? su.duration now _ _ hlt]
    congr 2
    have : ((quantityOrOne p.quantity - 1 : ℕ) : ℚ) =
        (quantityOrOne p.quantity : ℚ) - 1 := by
      push_cast [hone]
      ring
    rw [this]
    ring
  all_goals {
    unfold addUnit at hok
    simp only [hsu] at hok
    rcases hreq : addUnitUnfulfilled now g su with _ | _
    case true => simp [hreq] at hok
    simp only [hreq, Bool.false_eq_true, if_false] at hok
    rcases hUR : updateResources S now (insertNewUnit g su.code (quantityOrOne p.quantity)
        (pushTraining su.duration now (quantityOrOne p.quantity) [])) with e | g2
    · rw [hUR] at hok; cases hok
    · simp only [hUR] at hok
      by_cases hguard :
          (g2.resources.gold - su.cost.gold * (quantityOrOne p.quantity) < 0 ∨
           g2.resources.wood - su.cost.wood * (quantityOrOne p.quantity) < 0 ∨
           g2.resources.food - su.cost.food * (quantityOrOne p.quantity) < 0)
      · rw [if_pos hguard] at hok; cases hok
      · rw [if_neg hguard] at hok
        injection hok with hok
        have hunits : g'.units = (insertNewUnit g su.code (quantityOrOne p.quantity)
            (pushTraining su.duration now (quantityOrOne p.quantity) [])).units := by
          rw [← hok]
          exact (updateResources_ok_parts S now _ g2 hUR).2
        first
        | (rw [unitQuantity_congr_units g' _ su.code hunits]
           exact insertNewUnit_unitQuantity g su.code _ _)
        | (rw [idleAvailable_congr_units g' _ su.code now hunits]
           refine insertNewUnit_idleAvailable g su.code _ _ now ?_ ?_
           · intro a ha
             rw [hchain] at ha
             obtain ⟨h1, h2, h3⟩ := trainingChain_mem su.duration now _ hd a ha
             exact ⟨h1, h3⟩
           · rw [hchain]
             exact trainingChain_length _ _ _)
  }

/-- Static unit fixture for C4: 10s training, cost gold 10, wood 5, food 1,
no requirements. -/
def militiaC4 : IUnit :=
  { code := "militia", cost := ⟨10, 5, 1⟩, duration := 10, requiredBuildings := none }

/-- Statics fixture for C4. -/
def staticsC4 : Statics :=
  { findBuildingByCode := fun _ => none
    findUnitByCode := fun c => if c = "militia" then some militiaC4 else none
    defaultFactor := 8/5
    decreasedFactor := 3/2 }

/-- Garrison fixture for C4. -/
def garrC4 : Garrison :=
  { resources := ⟨100, 100, 100, 32, none, none⟩
    buildings := []
    units := [⟨"peasant", 3, []⟩] }

/-- Result of `addUnit` training 3 militia at t=0 on `garrC4`. -/
def garrC4' : Garrison :=
  { resources := ⟨70, 85, 97, 32, none, none⟩
    buildings := []
    units := [⟨"peasant", 3, []⟩,
      ⟨"militia", 3, [⟨none, 1, .instantiation, 10000⟩,
        ⟨none, 1, .instantiation, 20000⟩, ⟨none, 1, .instantiation, 30000⟩]⟩] }

/-- C4 witness: training 3 militia (10s each) at t=0 succeeds, creates the
three chained assignments ending at 10s/20s/30s, raises the owned quantity
from 0 to 3 and leaves idle availability at 0. -/
theorem C4_witness :
    addUnit staticsC4 0 garrC4 ⟨"militia", some 3⟩ = .ok garrC4' ∧
    unitQuantity garrC4' "militia" = unitQuantity garrC4 "militia" + 3 ∧
    idleAvailable garrC4' "militia" 0 = idleAvailable garrC4 "militia" 0 ∧
    (trainingChain (10 : ℚ) 0 3).get? 2 = some ⟨none, 1, .instantiation, 30000⟩ := by
  have hok : addUnit staticsC4 0 garrC4 ⟨"militia", some 3⟩ = .ok garrC4' := by
    norm_num [addUnit, addUnitUnfulfilled, insertNewUnit, pushTraining,
      updateResources, updateResourcesLoop, findWithIndex, quantityOrOne,
      militiaC4, staticsC4, garrC4, garrC4', String.reduceEq]
    simp
    norm_num
  have h := C4_addUnit_batch staticsC4 0 garrC4 ⟨"militia", some 3⟩ militiaC4 garrC4'
    (by norm_num [staticsC4]) (by norm_num [militiaC4]) hok
  refine ⟨hok, ?_, ?_, ?_⟩
  · exact h.2.2.2.2.1
  · exact h.2.2.2.2.2
  · norm_num [trainingChain]

/-- C7: cancelling the instantiation construction (no `improvement` tag)
removes the whole building from the garrison's building list and credits
the full unscaled static instantiation cost back to gold, wood and plot
(food untouched).  This holds for *every* static building: the prorated
gift-yield debit of the source is inside the unreachable
`case undefined` arm of `switch (typeof harvest.maxWorkforce)`, so it never
runs. -/
theorem C7_cancel_instantiation :
    ∀ (S : Statics) (g : Garrison) (p : IBuildingConstructionCancel)
      (b : IGarrisonBuilding) (bIdx : Nat) (sb : IBuilding)
      (c : IOperatedConstruction) (cIdx : Nat) (peasants : IGarrisonUnit)
      (pIdx : Nat) (g' : Garrison),
      findWithIndex (fun b' => decide (b'.id = p.buildingId)) g.buildings = some (b, bIdx) →
      S.findBuildingByCode b.code = some sb →
      findWithIndex (fun c' => decide (c'.id = p.constructionId)) b.constructions =
        some (c, cIdx) →
      c.improvement = none →
      findWithIndex (fun u => decide (u.code = "peasant")) g.units = some (peasants, pIdx) →
      cancelBuildingConstruction S g p = .ok g' →
      g'.buildings = jsSpliceRemoveOne g.buildings (bIdx : ℤ) ∧
      g'.resources.gold = g.resources.gold + sb.cost.gold ∧
      g'.resources.wood = g.resources.wood + sb.cost.wood ∧
      g'.resources.plot = g.resources.plot + sb.cost.plot ∧
      g'.resources.food = g.resources.food := by
  intro S g p b bIdx sb c cIdx peasants pIdx g' hfb hS hfc himp hfu hok
  have hget : b.constructions.get? cIdx = some c := (findWithIndex_get _ _ _ _ hfc).1
  unfold cancelBuildingConstruction at hok
  simp only [hfb, hS, hfc, hget, himp, hfu] at hok
  injection hok with hok
  subst hok
  have hfields : ∀ (bs : List IGarrisonBuilding) (res : IGarrisonResources),
      (cancelHarvestTimestampAdjust sb bs res).gold = res.gold ∧
      (cancelHarvestTimestampAdjust sb bs res).wood = res.wood ∧
      (cancelHarvestTimestampAdjust sb bs res).food = res.food ∧
      (cancelHarvestTimestampAdjust sb bs res).plot = res.plot := by
    intro bs res
    rcases hh : sb.harvest with _ | hv
    · simp [cancelHarvestTimestampAdjust, hh]
    · rcases hmw : hv.maxWorkforce with _ | m
      · simp [cancelHarvestTimestampAdjust, hh, hmw]
      · by_cases hex : bs.any (fun b' => decide (b'.code = sb.code)) = true
        · rcases hres : hv.resource <;>
            simp [cancelHarvestTimestampAdjust, hh, hmw, hex, hres]
        · simp only [Bool.not_eq_true] at hex
          simp [cancelHarvestTimestampAdjust, hh, hmw, hex]
  obtain ⟨h1, h2, h3, h4⟩ := hfields (jsSpliceRemoveOne g.buildings (bIdx : ℤ))
    { g.resources with
      gold := g.resources.gold + sb.cost.gold
      wood := g.resources.wood + sb.cost.wood
      plot := g.resources.plot + sb.cost.plot }
  exact ⟨rfl, h1, h2, h4, h3⟩

/-- Catalog fixture for C7: a non-harvest building with cost 100/50/5. -/
def hutC7 : IBuilding :=
  { code := "hut", cost := ⟨100, 50, 5⟩, minWorkforce := 1, duration := 60,
    requiredBuildings := none, upgrades := [], extensionInfo := none,
    harvest := none }

/-- Statics fixture for C7. -/
def staticsC7 : Statics :=
  { findBuildingByCode := fun c => if c = "hut" then some hutC7 else none
    findUnitByCode := fun _ => none
    defaultFactor := 8/5
    decreasedFactor := 3/2 }

/-- Garrison fixture for C7: one hut still under instantiation (ends at
60s) with 2 peasants committed. -/
def garrC7 : Garrison :=
  { resources := ⟨625, 320, 3, 32, none, none⟩
    buildings := [⟨1, "hut", [⟨10, 0, 60000, 2, none⟩]⟩]
    units := [⟨"peasant", 3, [⟨some 1, 2, .construction, 60000⟩]⟩] }

/-- C7 witness: cancelling the hut's instantiation removes the building
and credits the full cost: 625+100, 320+50, 32+5. -/
theorem C7_witness :
    cancelBuildingConstruction staticsC7 garrC7 ⟨1, 10⟩ =
      .ok { resources := ⟨725, 370, 3, 37, none, none⟩, buildings := [],
            units := [⟨"peasant", 3, []⟩] } ∧
    jsSpliceRemoveOne garrC7.buildings ((0 : ℕ) : ℤ) = [] := by
  have hok : cancelBuildingConstruction staticsC7 garrC7 ⟨1, 10⟩ =
      .ok { resources := ⟨725, 370, 3, 37, none, none⟩, buildings := [],
            units := [⟨"peasant", 3, []⟩] } := by
    norm_num [cancelBuildingConstruction, staticsC7, garrC7, hutC7,
      findWithIndex, improvementRefund, cancelHarvestTimestampAdjust,
      jsSpliceRemoveOne, jsFindIndex, List.findIdx?]
  have h := C7_cancel_instantiation staticsC7 garrC7 ⟨1, 10⟩
    ⟨1, "hut", [⟨10, 0, 60000, 2, none⟩]⟩ 0 hutC7 ⟨10, 0, 60000, 2, none⟩ 0
    ⟨"peasant", 3, [⟨some 1, 2, .construction, 60000⟩]⟩ 0
    { resources := ⟨725, 370, 3, 37, none, none⟩, buildings := [],
      units := [⟨"peasant", 3, []⟩] }
    (by norm_num [findWithIndex, garrC7]) (by norm_num [staticsC7])
    (by norm_num [findWithIndex]) rfl (by norm_num [findWithIndex, garrC7]) hok
  exact ⟨hok, h.1.symm⟩

theorem jsFindIndex_eq_neg_one {α : Type} (p : α → Bool) (l : List α)
    (h : ∀ a ∈ l, p a = false) : jsFindIndex p l = -1 := by
  unfold jsFindIndex
  have : l.findIdx? p = none := by
    induction l with
    | nil => rfl
    | cons a as ih =>
      rw [List.findIdx?_cons]
      rw [h a (List.mem_cons_self a as)]
      simp only [Nat.zero_add, cond_false]
      rw [List.findIdx?_succ]
      have := ih fun a' ha' => h a' (List.mem_cons_of_mem a ha')
      rw [this]
      rfl
  rw [this]

/-- C10: when a construction is cancelled, the peasant assignment to
release is located by comparing assignment `endDate`s with the `endDate`
of the construction sitting at the cancelled index *after* the
construction list has been spliced; and a failed lookup (index −1) makes
`splice(-1, 1)` remove the *last* assignment of the peasant cohort,
whichever one that is, instead of failing or removing nothing. -/
theorem C10_cancel_assignment_release :
    (∀ (S : Statics) (g : Garrison) (p : IBuildingConstructionCancel)
      (b : IGarrisonBuilding) (bIdx : Nat) (sb : IBuilding)
      (c : IOperatedConstruction) (cIdx : Nat) (imp : IImprovement)
      (peasants : IGarrisonUnit) (pIdx : Nat) (g' : Garrison),
      findWithIndex (fun b' => decide (b'.id = p.buildingId)) g.buildings = some (b, bIdx) →
      S.findBuildingByCode b.code = some sb →
      findWithIndex (fun c' => decide (c'.id = p.constructionId)) b.constructions =
        some (c, cIdx) →
      c.improvement = some imp →
      findWithIndex (fun u => decide (u.code = "peasant")) g.units = some (peasants, pIdx) →
      cancelBuildingConstruction S g p = .ok g' →
      g'.units = g.units.set pIdx { peasants with assignments :=
        (jsSpliceRemoveOne peasants.assignments
          (match (jsSpliceRemoveOne b.constructions (cIdx : ℤ)).get? cIdx with
           | some c' =>
             jsFindIndex (fun a => decide (a.endDate = c'.endDate)) peasants.assignments
           | none => -1)) }) ∧
    (∀ (l : List IUnitAssignment), l ≠ [] → jsSpliceRemoveOne l (-1) = l.dropLast) ∧
    (∀ (l : List IUnitAssignment) (q : IUnitAssignment → Bool),
      (∀ a ∈ l, q a = false) → jsFindIndex q l = -1) := by
  refine ⟨?_, ?_, ?_⟩
  · intro S g p b bIdx sb c cIdx imp peasants pIdx g' hfb hS hfc himp hfu hok
    have hget : b.constructions.get? cIdx = some c := (findWithIndex_get _ _ _ _ hfc).1
    unfold cancelBuildingConstruction at hok
    simp only [hfb, hS, hfc, hget, himp, hfu] at hok
    injection hok with hok
    subst hok
    rfl
  · intro l hne
    unfold jsSpliceRemoveOne
    have hlen : 1 ≤ l.length := by
      cases l with
      | nil => exact absurd rfl hne
      | cons a as => exact Nat.succ_le_succ (Nat.zero_le as.length)
    have hstart : (((l.length : ℤ) + (-1)).toNat) = l.length - 1 := by omega
    rw [if_pos (by omega), hstart]
    have hdrop : l.drop (l.length - 1 + 1) = [] := by
      apply List.drop_eq_nil_of_le
      omega
    show l.take (l.length - 1) ++ l.drop (l.length - 1 + 1) = l.dropLast
    rw [hdrop, List.append_nil, List.dropLast_eq_take]
  · exact fun l q h => jsFindIndex_eq_neg_one q l h

/-- Garrison fixture for C10: cancelling the pending level-1 upgrade
(id 11) splices it out, leaving no construction at index 1, so the
assignment lookup gets index −1; neither peasant assignment's endDate
(500, 700) matches anything. -/
def garrC10 : Garrison :=
  { resources := ⟨0, 0, 0, 0, none, none⟩
    buildings := [⟨1, "hut",
      [⟨10, 0, 1000, 1, none⟩, ⟨11, 100, 2000, 1, some ⟨.upgrade, 1⟩⟩]⟩]
    units := [⟨"peasant", 3,
      [⟨some 1, 1, .construction, 500⟩, ⟨some 1, 1, .construction, 700⟩]⟩] }

/-- Statics fixture for C10 (reuses the non-harvest hut shape). -/
def staticsC10 : Statics :=
  { findBuildingByCode := fun c =>
      if c = "hut" then
        some { code := "hut", cost := ⟨100, 50, 5⟩, minWorkforce := 1, duration := 60,
               requiredBuildings := none, upgrades := [], extensionInfo := none,
               harvest := none }
      else none
    findUnitByCode := fun _ => none
    defaultFactor := 8/5
    decreasedFactor := 3/2 }

/-- Result of the C10 cancellation (the refund is the one the source's
improvement branch computes: gold + plot·1.5, wood + wood, plot + plot). -/
def garrC10' : Garrison :=
  { resources := ⟨15/2, 50, 0, 5, none, none⟩
    buildings := [⟨1, "hut", [⟨10, 0, 1000, 1, none⟩]⟩]
    units := [⟨"peasant", 3, [⟨some 1, 1, .construction, 500⟩]⟩] }

/-- C10 witness: the failed lookup removes the *last* peasant assignment
(endDate 700), leaving the unrelated one (endDate 500). -/
theorem C10_witness :
    cancelBuildingConstruction staticsC10 garrC10 ⟨1, 11⟩ = .ok garrC10' ∧
    garrC10'.units = [⟨"peasant", 3, [⟨some 1, 1, .construction, 500⟩]⟩] := by
  have hok : cancelBuildingConstruction staticsC10 garrC10 ⟨1, 11⟩ = .ok garrC10' := by
    norm_num [cancelBuildingConstruction, staticsC10, garrC10, garrC10',
      findWithIndex, improvementRefund, cancelHarvestTimestampAdjust,
      jsSpliceRemoveOne, jsFindIndex, List.findIdx?]
  have h := C10_cancel_assignment_release.1 staticsC10 garrC10 ⟨1, 11⟩
    ⟨1, "hut", [⟨10, 0, 1000, 1, none⟩, ⟨11, 100, 2000, 1, some ⟨.upgrade, 1⟩⟩]⟩ 0
    { code := "hut", cost := ⟨100, 50, 5⟩, minWorkforce := 1, duration := 60,
      requiredBuildings := none, upgrades := [], extensionInfo := none,
      harvest := none }
    ⟨11, 100, 2000, 1, some ⟨.upgrade, 1⟩⟩ 1 ⟨.upgrade, 1⟩
    ⟨"peasant", 3, [⟨some 1, 1, .construction, 500⟩, ⟨some 1, 1, .construction, 700⟩]⟩ 0
    garrC10'
    (by norm_num [findWithIndex, garrC10]) (by norm_num [staticsC10])
    (by norm_num [findWithIndex]) rfl (by norm_num [findWithIndex, garrC10]) hok
  refine ⟨hok, ?_⟩
  rw [h]
  norm_num [garrC10, jsSpliceRemoveOne, jsFindIndex, List.findIdx?]

/-- C6 (amended): when the accrual-refreshed resources of the *already
mutated* in-memory aggregate cannot pay `quantity × unit cost`, `addUnit`
fails with PreconditionFailed (412) and the persisted garrison is exactly
what it was before the call (the mutated aggregate is discarded unsaved).
The original claim's further assertion — that every validation occurs
before any in-memory mutation of the aggregate — is false: the unit list
is merged (lines 645-664) before the resource check (lines 669-675) runs
(see the counterexample). -/
theorem C6_addUnit_insufficient :
    ∀ (S : Statics) (now : ℚ) (g : Garrison) (p : IUnitCreate) (su : IUnit)
      (gPre : Garrison),
      S.findUnitByCode p.code = some su →
      addUnitPreCheckState S now g p = .ok gPre →
      (gPre.resources.gold - su.cost.gold * (quantityOrOne p.quantity) < 0 ∨
       gPre.resources.wood - su.cost.wood * (quantityOrOne p.quantity) < 0 ∨
       gPre.resources.food - su.cost.food * (quantityOrOne p.quantity) < 0) →
      addUnit S now g p = .error ⟨412⟩ ∧ persist g (addUnit S now g p) = g := by
  intro S now g p su gPre hsu hPre hins
  unfold addUnitPreCheckState at hPre
  simp only [hsu] at hPre
  rcases hreq : addUnitUnfulfilled now g su with _ | _
  case true => rw [hreq] at hPre; simp at hPre
  rw [hreq] at hPre
  simp only [Bool.false_eq_true, if_false] at hPre
  have h1 : addUnit S now g p = .error ⟨412⟩ := by
    unfold addUnit
    simp only [hsu, hreq, Bool.false_eq_true, if_false, hPre]
    rw [if_pos hins]
  exact ⟨h1, by rw [h1]; rfl⟩

/-- Static unit fixture for C6: costs 10 gold per unit. -/
def militiaC6 : IUnit :=
  { code := "militia", cost := ⟨10, 5, 1⟩, duration := 10, requiredBuildings := none }

/-- Statics fixture for C6. -/
def staticsC6 : Statics :=
  { findBuildingByCode := fun _ => none
    findUnitByCode := fun c => if c = "militia" then some militiaC6 else none
    defaultFactor := 8/5
    decreasedFactor := 3/2 }

/-- Garrison fixture for C6: only 5 gold, not enough for one militia. -/
def garrC6 : Garrison :=
  { resources := ⟨5, 100, 100, 32, none, none⟩
    buildings := []
    units := [⟨"peasant", 3, []⟩] }

/-- The in-memory aggregate of the C6 call at resource-validation time:
the militia cohort is already merged in. -/
def garrC6pre : Garrison :=
  { resources := ⟨5, 100, 100, 32, none, none⟩
    buildings := []
    units := [⟨"peasant", 3, []⟩,
      ⟨"militia", 1, [⟨none, 1, .instantiation, 10000⟩]⟩] }

/-- C6 counterexample: with 5 gold and a 10-gold unit the call fails with
412 and the persisted garrison is unchanged — but the in-memory aggregate
at the moment the resource validation runs (`addUnitPreCheckState`)
already contains the merged unit, so the claim that every validation
occurs before any in-memory mutation of the aggregate is false. -/
theorem C6_counterexample :
    addUnit staticsC6 0 garrC6 ⟨"militia", some 1⟩ = .error ⟨412⟩ ∧
    persist garrC6 (addUnit staticsC6 0 garrC6 ⟨"militia", some 1⟩) = garrC6 ∧
    addUnitPreCheckState staticsC6 0 garrC6 ⟨"militia", some 1⟩ = .ok garrC6pre ∧
    garrC6pre.units ≠ garrC6.units := by
  have hPre : addUnitPreCheckState staticsC6 0 garrC6 ⟨"militia", some 1⟩ =
      .ok garrC6pre := by
    norm_num [addUnitPreCheckState, addUnitUnfulfilled, insertNewUnit, pushTraining,
      updateResources, updateResourcesLoop, findWithIndex, quantityOrOne,
      militiaC6, staticsC6, garrC6, garrC6pre, String.reduceEq]
    simp
  have herr : addUnit staticsC6 0 garrC6 ⟨"militia", some 1⟩ = .error ⟨412⟩ := by
    norm_num [addUnit, addUnitUnfulfilled, insertNewUnit, pushTraining,
      updateResources, updateResourcesLoop, findWithIndex, quantityOrOne,
      militiaC6, staticsC6, garrC6, String.reduceEq]
    simp
    norm_num
  refine ⟨herr, by rw [herr]; rfl, hPre, ?_⟩
  simp [garrC6pre, garrC6]

/-- C6 witness: the amended statement at the concrete insufficient-gold
input. -/
theorem C6_witness :
    addUnit staticsC6 0 garrC6 ⟨"militia", some 1⟩ = .error ⟨412⟩ ∧
    persist garrC6 (addUnit staticsC6 0 garrC6 ⟨"militia", some 1⟩) = garrC6 := by
  have hPre : addUnitPreCheckState staticsC6 0 garrC6 ⟨"militia", some 1⟩ =
      .ok garrC6pre := by
    norm_num [addUnitPreCheckState, addUnitUnfulfilled, insertNewUnit, pushTraining,
      updateResources, updateResourcesLoop, findWithIndex, quantityOrOne,
      militiaC6, staticsC6, garrC6, garrC6pre, String.reduceEq]
    simp
  exact C6_addUnit_insufficient staticsC6 0 garrC6 ⟨"militia", some 1⟩ militiaC6
    garrC6pre (by norm_num [staticsC6]) hPre
    (by norm_num [garrC6pre, militiaC6, quantityOrOne])

/-- C8: with the level-scaled minimum `m = minWorkforce · 2^(L+1)` (where
`L` is the current extension level), `extendBuilding` rejects a workforce
below `m` or above `2·m` with status 400; and a successful call appends a
construction whose duration is the level-scaled base duration
`round(duration · 1.3^(L+1))` multiplied by `0.97^(workforce − m)` — each
worker above the minimum cuts the duration by a fixed 3%. -/
theorem C8_extend_workforce_duration :
    ∀ (S : Statics) (now : ℚ) (cid : Nat) (g : Garrison) (p : IBuildingUpgradeOrExtend)
      (gb : IGarrisonBuilding) (i : Nat) (sb : IBuilding) (ext : IBuildingExtensionInfo)
      (L m : Nat) (peasants : IGarrisonUnit) (pIdx : Nat),
      findWithIndex (fun b' => decide (b'.id = p.buildingId)) g.buildings = some (gb, i) →
      S.findBuildingByCode gb.code = some sb →
      sb.extensionInfo = some ext →
      hasUnexpired now gb.constructions = false →
      currentMaxLevel ImprovementType.extension gb.constructions = L →
      sb.minWorkforce * 2 ^ (L + 1) = m →
      (match ext.maxLevel with
       | some mx => decide (mx < L + 1)
       | none => false) = false →
      (match ext.requiredBuildings with
       | some rs => rs.any (extendRequirementUnfulfilledOne now L g.buildings)
       | none => false) = false →
      findWithIndex (fun u => decide (u.code = "peasant")) g.units = some (peasants, pIdx) →
      ¬ peasants.quantity < p.workforce →
      ¬ (((peasants.quantity : ℤ) - unexpiredAssigned now peasants) < (p.workforce : ℤ)) →
      ((p.workforce < m ∨ m * 2 < p.workforce) →
        extendBuilding S now cid g p = .error ⟨400⟩) ∧
      (∀ g', extendBuilding S now cid g p = .ok g' →
        g'.buildings = g.buildings.map (fun b =>
          if b.code = sb.code then
            { b with constructions := b.constructions ++
              [⟨cid, now,
                now + ((jsRound (sb.duration * (13/10) ^ (L + 1)) : ℚ) *
                  (97/100) ^ ((p.workforce : ℤ) - (m : ℤ))) * 1000,
                p.workforce, some ⟨.extension, L + 1⟩⟩] }
          else b)) := by
  intro S now cid g p gb i sb ext L m peasants pIdx hfb hS hext hbusy hL hm
    htoohigh hunful hfu hq havail
  constructor
  · intro hrej
    unfold extendBuilding
    simp only [hfb, hS, hext, hbusy, Bool.false_eq_true, if_false, hL, hm,
      htoohigh, hunful, hfu]
    by_cases hlow : p.workforce < m
    · simp [hq, havail, hlow]
    · rcases hrej with hrej | hrej
      · exact absurd hrej hlow
      · simp [hq, havail, hlow, hrej]
  · intro g' hok
    unfold extendBuilding at hok
    simp only [hfb, hS, hext, hbusy, Bool.false_eq_true, if_false, hL, hm,
      htoohigh, hunful, hfu] at hok
    by_cases hlow : p.workforce < m
    · simp [hq, havail, hlow] at hok
    · by_cases hhigh : m * 2 < p.workforce
      · simp [hq, havail, hlow, hhigh] at hok
      · simp only [hq, havail, hlow, hhigh, if_false, if_neg] at hok
        by_cases hpay : (g.resources.gold -
              (jsRound (sb.cost.gold * (8/5) ^ (L + 1)) : ℚ) < 0 ∨
            g.resources.wood - (jsRound (sb.cost.wood * (8/5) ^ (L + 1)) : ℚ) < 0 ∨
            g.resources.plot - (jsRound ((sb.cost.plot / 2) * (3/2) ^ (L + 1)) : ℚ) < 0)
        · rw [if_pos hpay] at hok; cases hok
        · rw [if_neg hpay] at hok
          injection hok with hok
          rw [← hok]

/-- Catalog fixture for C8: extendable building, base duration 60s,
minimum workforce 1. -/
def hutC8 : IBuilding :=
  { code := "hut8", cost := ⟨100, 50, 5⟩, minWorkforce := 1, duration := 60,
    requiredBuildings := none, upgrades := [],
    extensionInfo := some ⟨none, some 3⟩, harvest := none }

/-- Statics fixture for C8. -/
def staticsC8 : Statics :=
  { findBuildingByCode := fun c => if c = "hut8" then some hutC8 else none
    findUnitByCode := fun _ => none
    defaultFactor := 8/5
    decreasedFactor := 3/2 }

/-- Garrison fixture for C8: an idle hut8 and five idle peasants. -/
def garrC8 : Garrison :=
  { resources := ⟨625, 320, 3, 32, none, none⟩
    buildings := [⟨1, "hut8", []⟩]
    units := [⟨"peasant", 5, []⟩] }

/-- Result of extending `garrC8` with workforce 3 at t=0: scaled minimum 2,
duration `round(60·1.3)·0.97^(3-2) = 78·0.97 = 75.66 s`, costs
160/80/4. -/
def garrC8' : Garrison :=
  { resources := ⟨465, 240, 3, 28, none, none⟩
    buildings := [⟨1, "hut8", [⟨7, 0, 75660, 3, some ⟨.extension, 1⟩⟩]⟩]
    units := [⟨"peasant", 5, [⟨some 1, 3, .construction, 75660⟩]⟩] }

/-- C8 witness: workforce 1 (below the scaled minimum 2) is rejected with
400; workforce 5 (above 2×2) is rejected with 400; workforce 3 succeeds
and the appended construction ends at `0 + 78·0.97·1000 = 75660` ms. -/
theorem C8_witness :
    extendBuilding staticsC8 0 7 garrC8 ⟨1, 1⟩ = .error ⟨400⟩ ∧
    extendBuilding staticsC8 0 7 garrC8 ⟨1, 5⟩ = .error ⟨400⟩ ∧
    extendBuilding staticsC8 0 7 garrC8 ⟨1, 3⟩ = .ok garrC8' ∧
    garrC8'.buildings = garrC8.buildings.map (fun b =>
      if b.code = hutC8.code then
        { b with constructions := b.constructions ++
          [⟨7, 0,
            0 + ((jsRound (hutC8.duration * (13/10) ^ (0 + 1)) : ℚ) *
              (97/100) ^ ((3 : ℤ) - ((2 : ℕ) : ℤ))) * 1000,
            3, some ⟨.extension, 0 + 1⟩⟩] }
      else b) := by
  have hok : extendBuilding staticsC8 0 7 garrC8 ⟨1, 3⟩ = .ok garrC8' := by
    norm_num [extendBuilding, staticsC8, garrC8, garrC8', hutC8, findWithIndex,
      currentMaxLevel, hasUnexpired, unexpiredAssigned, sumUnexpired, jsRound]
  refine ⟨?_, ?_, hok, ?_⟩
  · exact (C8_extend_workforce_duration staticsC8 0 7 garrC8 ⟨1, 1⟩
      ⟨1, "hut8", []⟩ 0 hutC8 ⟨none, some 3⟩ 0 2 ⟨"peasant", 5, []⟩ 0
      (by norm_num [findWithIndex, garrC8]) (by norm_num [staticsC8])
      (by norm_num [hutC8]) (by norm_num [hasUnexpired])
      (by norm_num [currentMaxLevel]) (by norm_num [hutC8])
      (by norm_num) (by norm_num [hutC8]) (by norm_num [findWithIndex, garrC8])
      (by norm_num) (by norm_num [unexpiredAssigned, sumUnexpired])).1
      (by norm_num)
  · exact (C8_extend_workforce_duration staticsC8 0 7 garrC8 ⟨1, 5⟩
      ⟨1, "hut8", []⟩ 0 hutC8 ⟨none, some 3⟩ 0 2 ⟨"peasant", 5, []⟩ 0
      (by norm_num [findWithIndex, garrC8]) (by norm_num [staticsC8])
      (by norm_num [hutC8]) (by norm_num [hasUnexpired])
      (by norm_num [currentMaxLevel]) (by norm_num [hutC8])
      (by norm_num) (by norm_num [hutC8]) (by norm_num [findWithIndex, garrC8])
      (by norm_num) (by norm_num [unexpiredAssigned, sumUnexpired])).1
      (by norm_num)
  · exact (C8_extend_workforce_duration staticsC8 0 7 garrC8 ⟨1, 3⟩
      ⟨1, "hut8", []⟩ 0 hutC8 ⟨none, some 3⟩ 0 2 ⟨"peasant", 5, []⟩ 0
      (by norm_num [findWithIndex, garrC8]) (by norm_num [staticsC8])
      (by norm_num [hutC8]) (by norm_num [hasUnexpired])
      (by norm_num [currentMaxLevel]) (by norm_num [hutC8])
      (by norm_num) (by norm_num [hutC8]) (by norm_num [findWithIndex, garrC8])
      (by norm_num) (by norm_num [unexpiredAssigned, sumUnexpired])).2
      garrC8' hok

/-- C9: after a successful `unassignUnit` on a goldmine (resp. sawmill),
if no harvest assignment of the unassigned cohort remains that points at
any garrison building of the same code, `goldLastUpdate` (resp.
`woodLastUpdate`) is deleted entirely; if one remains, the timestamp is
kept as the accrual left it. -/
theorem C9_unassign_clears_timestamp :
    (∀ (S : Statics) (now : ℚ) (g : Garrison) (p : IUnitAssign)
      (gb : IGarrisonBuilding) (i : Nat) (sb : IBuilding) (hv : IHarvest)
      (su : IUnit) (gu : IGarrisonUnit) (uIdx aIdx : Nat) (a : IUnitAssignment)
      (gU g' : Garrison),
      findWithIndex (fun b' => decide (b'.id = p.buildingId)) g.buildings = some (gb, i) →
      S.findBuildingByCode gb.code = some sb →
      sb.harvest = some hv →
      S.findUnitByCode p.code = some su →
      findWithIndex (fun u => decide (u.code = p.code)) g.units = some (gu, uIdx) →
      gu.assignments.findIdx? (fun a' => decide (a'.buildingId = some gb.id) &&
        decide (a'.type = AssignmentType.harvest)) = some aIdx →
      gu.assignments.get? aIdx = some a →
      ¬ a.quantity < quantityOrOne p.quantity →
      (if su.code = "peasant" then updateResources S now g else .ok g) = .ok gU →
      sb.code = "goldmine" →
      unassignUnit S now g p = .ok g' →
      (someHarvestOnCode
          (if a.quantity - quantityOrOne p.quantity = 0
           then jsSpliceRemoveOne gu.assignments (aIdx : ℤ)
           else gu.assignments.set aIdx
             { a with quantity := a.quantity - quantityOrOne p.quantity })
          g.buildings sb.code = false →
        g'.resources.goldLastUpdate = none) ∧
      (someHarvestOnCode
          (if a.quantity - quantityOrOne p.quantity = 0
           then jsSpliceRemoveOne gu.assignments (aIdx : ℤ)
           else gu.assignments.set aIdx
             { a with quantity := a.quantity - quantityOrOne p.quantity })
          g.buildings sb.code = true →
        g'.resources.goldLastUpdate = gU.resources.goldLastUpdate)) ∧
    (∀ (S : Statics) (now : ℚ) (g : Garrison) (p : IUnitAssign)
      (gb : IGarrisonBuilding) (i : Nat) (sb : IBuilding) (hv : IHarvest)
      (su : IUnit) (gu : IGarrisonUnit) (uIdx aIdx : Nat) (a : IUnitAssignment)
      (gU g' : Garrison),
      findWithIndex (fun b' => decide (b'.id = p.buildingId)) g.buildings = some (gb, i) →
      S.findBuildingByCode gb.code = some sb →
      sb.harvest = some hv →
      S.findUnitByCode p.code = some su →
      findWithIndex (fun u => decide (u.code = p.code)) g.units = some (gu, uIdx) →
      gu.assignments.findIdx? (fun a' => decide (a'.buildingId = some gb.id) &&
        decide (a'.type = AssignmentType.harvest)) = some aIdx →
      gu.assignments.get? aIdx = some a →
      ¬ a.quantity < quantityOrOne p.quantity →
      (if su.code = "peasant" then updateResources S now g else .ok g) = .ok gU →
      sb.code = "sawmill" →
      unassignUnit S now g p = .ok g' →
      (someHarvestOnCode
          (if a.quantity - quantityOrOne p.quantity = 0
           then jsSpliceRemoveOne gu.assignments (aIdx : ℤ)
           else gu.assignments.set aIdx
             { a with quantity := a.quantity - quantityOrOne p.quantity })
          g.buildings sb.code = false →
        g'.resources.woodLastUpdate = none) ∧
      (someHarvestOnCode
          (if a.quantity - quantityOrOne p.quantity = 0
           then jsSpliceRemoveOne gu.assignments (aIdx : ℤ)
           else gu.assignments.set aIdx
             { a with quantity := a.quantity - quantityOrOne p.quantity })
          g.buildings sb.code = true →
        g'.resources.woodLastUpdate = gU.resources.woodLastUpdate)) := by
  constructor
  · intro S now g p gb i sb hv su gu uIdx aIdx a gU g' hfb hS hharv hsu hfu hfi
      hget hq hU hcode hok
    unfold unassignUnit at hok
    simp only [hfb, hS, hharv, hsu, hfu, hfi, hget, if_neg hq, hU, hcode] at hok
    cases hsome : someHarvestOnCode
        (if a.quantity - quantityOrOne p.quantity = 0
         then jsSpliceRemoveOne gu.assignments (aIdx : ℤ)
         else gu.assignments.set aIdx
           { a with quantity := a.quantity - quantityOrOne p.quantity })
        g.buildings sb.code with
    | false =>
      rw [hcode] at hsome
      simp only [hsome, Bool.false_eq_true, if_false, if_pos rfl] at hok
      injection hok with hok
      subst hok
      simp [hsome, hcode]
    | true =>
      rw [hcode] at hsome
      simp only [hsome, if_true, if_pos rfl] at hok
      injection hok with hok
      subst hok
      simp [hsome, hcode]
  · intro S now g p gb i sb hv su gu uIdx aIdx a gU g' hfb hS hharv hsu hfu hfi
      hget hq hU hcode hok
    unfold unassignUnit at hok
    have hcode' : sb.code ≠ "goldmine" := by rw [hcode]; decide
    simp only [hfb, hS, hharv, hsu, hfu, hfi, hget, if_neg hq, hU, hcode] at hok
    cases hsome : someHarvestOnCode
        (if a.quantity - quantityOrOne p.quantity = 0
         then jsSpliceRemoveOne gu.assignments (aIdx : ℤ)
         else gu.assignments.set aIdx
           { a with quantity := a.quantity - quantityOrOne p.quantity })
        g.buildings sb.code with
    | false =>
      rw [hcode] at hsome
      simp only [hsome, Bool.false_eq_true, if_false, String.reduceEq,
        if_pos rfl] at hok
      injection hok with hok
      subst hok
      simp [hsome, hcode]
    | true =>
      rw [hcode] at hsome
      simp only [hsome, if_true, String.reduceEq, if_pos rfl] at hok
      injection hok with hok
      subst hok
      simp [hsome, hcode]

/-- Catalog fixture for C9: the goldmine. -/
def goldmineC9 : IBuilding :=
  { code := "goldmine", cost := ⟨100, 50, 5⟩, minWorkforce := 1, duration := 60,
    requiredBuildings := none, upgrades := [], extensionInfo := none,
    harvest := some ⟨ResKind.gold, 5, some 10⟩ }

/-- Static unit fixture for C9. -/
def peasantC9 : IUnit :=
  { code := "peasant", cost := ⟨10, 0, 1⟩, duration := 10, requiredBuildings := none }

/-- Statics fixture for C9. -/
def staticsC9 : Statics :=
  { findBuildingByCode := fun c => if c = "goldmine" then some goldmineC9 else none
    findUnitByCode := fun c => if c = "peasant" then some peasantC9 else none
    defaultFactor := 8/5
    decreasedFactor := 3/2 }

/-- C9 garrison fixture, clear case: one goldmine, one harvester. -/
def garrC9 : Garrison :=
  { resources := ⟨0, 0, 0, 0, some 0, none⟩
    buildings := [⟨1, "goldmine", []⟩]
    units := [⟨"peasant", 3, [⟨some 1, 1, .harvest, farFutureDate⟩]⟩] }

/-- C9 garrison fixture, keep case: two goldmines, one harvester each. -/
def garrC9k : Garrison :=
  { resources := ⟨0, 0, 0, 0, some 0, none⟩
    buildings := [⟨1, "goldmine", []⟩, ⟨2, "goldmine", []⟩]
    units := [⟨"peasant", 3,
      [⟨some 1, 1, .harvest, farFutureDate⟩, ⟨some 2, 1, .harvest, farFutureDate⟩]⟩] }

/-- Result of the C9 clear-case call. -/
def garrC9res : Garrison :=
  { resources := ⟨5, 0, 0, 0, none, none⟩
    buildings := [⟨1, "goldmine", []⟩]
    units := [⟨"peasant", 3, []⟩] }

/-- Result of the C9 keep-case call. -/
def garrC9kres : Garrison :=
  { resources := ⟨5, 0, 0, 0, some 60000, none⟩
    buildings := [⟨1, "goldmine", []⟩, ⟨2, "goldmine", []⟩]
    units := [⟨"peasant", 3, [⟨some 2, 1, .harvest, farFutureDate⟩]⟩] }

/-- C9 witness: unassigning the only harvester of the only goldmine clears
`goldLastUpdate` entirely; with a second goldmine still harvested,
the timestamp is kept (as refreshed by the accrual). -/
theorem C9_witness :
    unassignUnit staticsC9 60000 garrC9 ⟨1, "peasant", some 1⟩ = .ok garrC9res ∧
    garrC9res.resources.goldLastUpdate = none ∧
    unassignUnit staticsC9 60000 garrC9k ⟨1, "peasant", some 1⟩ = .ok garrC9kres ∧
    garrC9kres.resources.goldLastUpdate = some 60000 := by
  have hU : (if peasantC9.code = "peasant" then updateResources staticsC9 60000 garrC9
      else .ok garrC9) =
      .ok { resources := ⟨5, 0, 0, 0, some 60000, none⟩,
            buildings := [⟨1, "goldmine", []⟩],
            units := [⟨"peasant", 3, [⟨some 1, 1, .harvest, farFutureDate⟩]⟩] } := by
    norm_num [peasantC9, updateResources, updateResourcesLoop, updateResourcesStep,
      staticsC9, garrC9, goldmineC9, assignedHarvestWorkers, hasUnexpired,
      applyHarvestGain, resGet, resSet, farFutureDate, List.find?]
  have hUk : (if peasantC9.code = "peasant" then updateResources staticsC9 60000 garrC9k
      else .ok garrC9k) =
      .ok { resources := ⟨5, 0, 0, 0, some 60000, none⟩,
            buildings := [⟨1, "goldmine", []⟩, ⟨2, "goldmine", []⟩],
            units := [⟨"peasant", 3,
              [⟨some 1, 1, .harvest, farFutureDate⟩,
               ⟨some 2, 1, .harvest, farFutureDate⟩]⟩] } := by
    norm_num [peasantC9, updateResources, updateResourcesLoop, updateResourcesStep,
      staticsC9, garrC9k, goldmineC9, assignedHarvestWorkers, hasUnexpired,
      applyHarvestGain, resGet, resSet, farFutureDate, List.find?]
  have hok : unassignUnit staticsC9 60000 garrC9 ⟨1, "peasant", some 1⟩ =
      .ok garrC9res := by
    norm_num [unassignUnit, garrC9res, peasantC9, updateResources, updateResourcesLoop,
      updateResourcesStep, staticsC9, garrC9, goldmineC9, assignedHarvestWorkers,
      hasUnexpired, applyHarvestGain, resGet, resSet, farFutureDate, List.find?,
      findWithIndex, List.findIdx?, quantityOrOne, jsSpliceRemoveOne,
      someHarvestOnCode]
  have hokk : unassignUnit staticsC9 60000 garrC9k ⟨1, "peasant", some 1⟩ =
      .ok garrC9kres := by
    norm_num [unassignUnit, garrC9kres, peasantC9, updateResources, updateResourcesLoop,
      updateResourcesStep, staticsC9, garrC9k, goldmineC9, assignedHarvestWorkers,
      hasUnexpired, applyHarvestGain, resGet, resSet, farFutureDate, List.find?,
      findWithIndex, List.findIdx?, quantityOrOne, jsSpliceRemoveOne,
      someHarvestOnCode]
  refine ⟨hok, ?_, hokk, ?_⟩
  · exact (C9_unassign_clears_timestamp.1 staticsC9 60000 garrC9 ⟨1, "peasant", some 1⟩
      ⟨1, "goldmine", []⟩ 0 goldmineC9 ⟨ResKind.gold, 5, some 10⟩ peasantC9
      ⟨"peasant", 3, [⟨some 1, 1, .harvest, farFutureDate⟩]⟩ 0 0
      ⟨some 1, 1, .harvest, farFutureDate⟩ _ _
      (by norm_num [findWithIndex, garrC9]) (by norm_num [staticsC9])
      (by norm_num [goldmineC9]) (by norm_num [staticsC9])
      (by norm_num [findWithIndex, garrC9]) (by norm_num [List.findIdx?])
      (by norm_num) (by norm_num [quantityOrOne]) hU (by norm_num [goldmineC9]) hok).1
      (by norm_num [quantityOrOne, jsSpliceRemoveOne, someHarvestOnCode, goldmineC9])
  · exact (C9_unassign_clears_timestamp.1 staticsC9 60000 garrC9k ⟨1, "peasant", some 1⟩
      ⟨1, "goldmine", []⟩ 0 goldmineC9 ⟨ResKind.gold, 5, some 10⟩ peasantC9
      ⟨"peasant", 3, [⟨some 1, 1, .harvest, farFutureDate⟩,
        ⟨some 2, 1, .harvest, farFutureDate⟩]⟩ 0 0
      ⟨some 1, 1, .harvest, farFutureDate⟩ _ _
      (by norm_num [findWithIndex, garrC9k]) (by norm_num [staticsC9])
      (by norm_num [goldmineC9]) (by norm_num [staticsC9])
      (by norm_num [findWithIndex, garrC9k]) (by norm_num [List.findIdx?])
      (by norm_num) (by norm_num [quantityOrOne]) hUk (by norm_num [goldmineC9]) hokk).2
      (by norm_num [quantityOrOne, jsSpliceRemoveOne, someHarvestOnCode, goldmineC9,
        garrC9k, farFutureDate])

/-! ## Resource non-negativity invariant (C5) -/

/-- All four resource quantities are non-negative. -/
def ResourcesNonneg (r : IGarrisonResources) : Prop :=
  0 ≤ r.gold ∧ 0 ≤ r.wood ∧ 0 ≤ r.food ∧ 0 ≤ r.plot

/-- Both accrual timestamps (when present) are at most `t`. -/
def TimestampsLE (r : IGarrisonResources) (t : ℚ) : Prop :=
  (∀ u, r.goldLastUpdate = some u → u ≤ t) ∧
  (∀ u, r.woodLastUpdate = some u → u ≤ t)

/-- The state invariant at wall-clock instant `t`. -/
def GarrisonInv (g : Garrison) (t : ℚ) : Prop :=
  ResourcesNonneg g.resources ∧ TimestampsLE g.resources t

/-- Sanity of the static catalog: non-negative tunable factors, costs and
harvest amounts. -/
def StaticsWellFormed (S : Statics) : Prop :=
  0 ≤ S.defaultFactor ∧ 0 ≤ S.decreasedFactor ∧
  (∀ c sb, S.findBuildingByCode c = some sb →
    0 ≤ sb.cost.gold ∧ 0 ≤ sb.cost.wood ∧ 0 ≤ sb.cost.plot ∧
    (∀ h, sb.harvest = some h → 0 ≤ h.amount))

theorem resGet_nonneg (r : IGarrisonResources) (k : ResKind)
    (h : ResourcesNonneg r) : 0 ≤ resGet r k := by
  obtain ⟨h1, h2, h3, h4⟩ := h
  cases k <;> assumption

theorem resSet_nonneg (r : IGarrisonResources) (k : ResKind) (v : ℚ)
    (h : ResourcesNonneg r) (hv : 0 ≤ v) : ResourcesNonneg (resSet r k v) := by
  obtain ⟨h1, h2, h3, h4⟩ := h
  cases k <;> exact ⟨by simpa [resSet], by simpa [resSet], by simpa [resSet],
    by simpa [resSet]⟩

theorem resSet_timestamps (r : IGarrisonResources) (k : ResKind) (v : ℚ) (t : ℚ)
    (h : TimestampsLE r t) : TimestampsLE (resSet r k v) t := by
  obtain ⟨h1, h2⟩ := h
  cases k <;> exact ⟨h1, h2⟩

theorem TimestampsLE_mono (r : IGarrisonResources) (t t' : ℚ)
    (h : TimestampsLE r t) (htt : t ≤ t') : TimestampsLE r t' :=
  ⟨fun u hu => le_trans (h.1 u hu) htt, fun u hu => le_trans (h.2 u hu) htt⟩

theorem GarrisonInv_mono (g : Garrison) (t t' : ℚ)
    (h : GarrisonInv g t) (htt : t ≤ t') : GarrisonInv g t' :=
  ⟨h.1, TimestampsLE_mono _ _ _ h.2 htt⟩

theorem applyHarvestGain_inv (res : IGarrisonResources) (hv : IHarvest) (w : Nat)
    (e : ℚ) (now : ℚ) (goldNew woodNew : Option ℚ)
    (hres : ResourcesNonneg res) (hts : TimestampsLE res now)
    (hamt : 0 ≤ hv.amount) (he : 0 ≤ e)
    (hg : goldNew = none ∨ goldNew = some now)
    (hw : woodNew = none ∨ woodNew = some now) :
    ResourcesNonneg (applyHarvestGain res hv w e goldNew woodNew) ∧
    TimestampsLE (applyHarvestGain res hv w e goldNew woodNew) now := by
  have hgain : (0 : ℤ) ≤ ⌊hv.amount * e * (w : ℚ)⌋ := by
    rw [Int.le_floor]
    push_cast
    positivity
  have hval : 0 ≤ resGet res hv.resource + ((⌊hv.amount * e * (w : ℚ)⌋ : ℤ) : ℚ) := by
    have h0 : (0 : ℚ) ≤ ((⌊hv.amount * e * (w : ℚ)⌋ : ℤ) : ℚ) := by
      exact_mod_cast hgain
    linarith [resGet_nonneg res hv.resource hres]
  constructor
  · have hn := resSet_nonneg res hv.resource _ hres hval
    obtain ⟨h1, h2, h3, h4⟩ := hn
    exact ⟨by simpa [applyHarvestGain], by simpa [applyHarvestGain],
      by simpa [applyHarvestGain], by simpa [applyHarvestGain]⟩
  · have hset := resSet_timestamps res hv.resource
      (resGet res hv.resource + ((⌊hv.amount * e * (w : ℚ)⌋ : ℤ) : ℚ)) now hts
    constructor
    · intro u hu
      simp only [applyHarvestGain] at hu
      rcases hg with hg | hg <;> rw [hg] at hu
      · simp only [Option.none_orElse] at hu
        exact hts.1 u hu
      · simp only [Option.some_orElse] at hu
        injection hu with hu
        exact le_of_eq hu.symm
    · intro u hu
      simp only [applyHarvestGain] at hu
      rcases hw with hw | hw <;> rw [hw] at hu
      · simp only [Option.none_orElse] at hu
        exact hts.2 u hu
      · simp only [Option.some_orElse] at hu
        injection hu with hu
        exact le_of_eq hu.symm

theorem updateResourcesStep_inv (S : Statics) (now : ℚ) (units : List IGarrisonUnit)
    (res : IGarrisonResources) (b : IGarrisonBuilding) (res' : IGarrisonResources)
    (hS : StaticsWellFormed S) (hres : ResourcesNonneg res)
    (hts : TimestampsLE res now)
    (h : updateResourcesStep S now units res b = .ok res') :
    ResourcesNonneg res' ∧ TimestampsLE res' now := by
  unfold updateResourcesStep at h
  rcases hSb : S.findBuildingByCode b.code with _ | sb
  · simp only [hSb] at h
    simp at h
  simp only [hSb] at h
  rcases hh : sb.harvest with _ | hv
  · simp only [hh] at h
    injection h with h
    subst h
    exact ⟨hres, hts⟩
  simp only [hh] at h
  have hamt : 0 ≤ hv.amount := (hS.2.2 _ _ hSb).2.2.2 hv hh
  cases hb : hasUnexpired now b.constructions
  case true =>
    simp only [hb, if_true] at h
    injection h with h
    subst h
    exact ⟨hres, hts⟩
  simp only [hb, Bool.false_eq_true, if_false] at h
  rcases hw : assignedHarvestWorkers units b.id with _ | w
  · simp only [hw] at h
    injection h with h
    subst h
    exact ⟨hres, hts⟩
  simp only [hw] at h
  by_cases hw0 : w = 0
  · simp only [hw0, if_pos rfl] at h
    injection h with h
    subst h
    exact ⟨hres, hts⟩
  simp only [if_neg hw0] at h
  by_cases hbc : b.code = "goldmine"
  · simp only [hbc, if_pos rfl] at h
    rcases ht : res.goldLastUpdate with _ | t
    · simp only [ht] at h
      injection h with h
      subst h
      exact ⟨hres, hts⟩
    simp only [ht] at h
    by_cases hz : (now - t) / 1000 / 60 = 0
    · rw [if_pos hz] at h
      injection h with h
      subst h
      exact ⟨hres, hts⟩
    · rw [if_neg hz] at h
      injection h with h
      subst h
      have htle : t ≤ now := hts.1 t ht
      exact applyHarvestGain_inv res hv w _ now (some now) none hres hts hamt
        (by
          have : 0 ≤ now - t := by linarith
          positivity)
        (Or.inr rfl) (Or.inl rfl)
  by_cases hbs : b.code = "sawmill"
  · simp only [hbc, if_neg hbc, hbs, if_pos rfl] at h
    rcases ht : res.woodLastUpdate with _ | t
    · simp only [ht] at h
      injection h with h
      subst h
      exact ⟨hres, hts⟩
    simp only [ht] at h
    by_cases hz : (now - t) / 1000 / 60 = 0
    · rw [if_pos hz] at h
      injection h with h
      subst h
      exact ⟨hres, hts⟩
    · rw [if_neg hz] at h
      injection h with h
      subst h
      have htle : t ≤ now := hts.2 t ht
      exact applyHarvestGain_inv res hv w _ now none (some now) hres hts hamt
        (by
          have : 0 ≤ now - t := by linarith
          positivity)
        (Or.inl rfl) (Or.inr rfl)
  · simp only [if_neg hbc, if_neg hbs] at h
    injection h with h
    subst h
    exact ⟨hres, hts⟩

theorem updateResourcesLoop_inv (S : Statics) (now : ℚ) (units : List IGarrisonUnit)
    (bs : List IGarrisonBuilding) (res res' : IGarrisonResources)
    (hS : StaticsWellFormed S) (hres : ResourcesNonneg res)
    (hts : TimestampsLE res now)
    (h : updateResourcesLoop S now units res bs = .ok res') :
    ResourcesNonneg res' ∧ TimestampsLE res' now := by
  induction bs generalizing res with
  | nil =>
    unfold updateResourcesLoop at h
    injection h with h
    subst h
    exact ⟨hres, hts⟩
  | cons b bs ih =>
    unfold updateResourcesLoop at h
    rcases hstep : updateResourcesStep S now units res b with e | res1
    · rw [hstep] at h; cases h
    · rw [hstep] at h
      obtain ⟨h1, h2⟩ := updateResourcesStep_inv S now units res b res1 hS hres hts hstep
      exact ih res1 h1 h2 h

theorem updateResources_inv (S : Statics) (now : ℚ) (g g' : Garrison)
    (hS : StaticsWellFormed S) (hinv : GarrisonInv g now)
    (h : updateResources S now g = .ok g') : GarrisonInv g' now := by
  unfold updateResources at h
  rcases hl : updateResourcesLoop S now g.units g.resources g.buildings with e | res
  · rw [hl] at h; cases h
  · rw [hl] at h
    injection h with h
    subst h
    exact updateResourcesLoop_inv S now g.units g.buildings g.resources res hS
      hinv.1 hinv.2 hl

theorem checkConstructionPaymentCapacity_inv (S : Statics)
    (res : IGarrisonResources) (cost : IBuildingCost)
    (improvement : Option (ImprovementType × List IOperatedConstruction))
    (res' : IGarrisonResources) (t : ℚ)
    (hres : ResourcesNonneg res) (hts : TimestampsLE res t)
    (h : checkConstructionPaymentCapacity S res cost improvement = .ok res') :
    ResourcesNonneg res' ∧ TimestampsLE res' t := by
  unfold checkConstructionPaymentCapacity at h
  by_cases hguard : (res.gold - (match improvement with
      | none => (cost.gold, cost.wood, cost.plot)
      | some (t, cs) =>
        (cost.gold * S.defaultFactor ^ currentMaxLevel t cs,
         cost.wood * S.defaultFactor ^ currentMaxLevel t cs,
         cost.plot * S.decreasedFactor ^ currentMaxLevel t cs)).1 < 0 ∨
    res.wood - (match improvement with
      | none => (cost.gold, cost.wood, cost.plot)
      | some (t, cs) =>
        (cost.gold * S.defaultFactor ^ currentMaxLevel t cs,
         cost.wood * S.defaultFactor ^ currentMaxLevel t cs,
         cost.plot * S.decreasedFactor ^ currentMaxLevel t cs)).2.1 < 0 ∨
    res.plot - (match improvement with
      | none => (cost.gold, cost.wood, cost.plot)
      | some (t, cs) =>
        (cost.gold * S.defaultFactor ^ currentMaxLevel t cs,
         cost.wood * S.defaultFactor ^ currentMaxLevel t cs,
         cost.plot * S.decreasedFactor ^ currentMaxLevel t cs)).2.2 < 0)
  · rw [if_pos hguard] at h
    cases h
  · rw [if_neg hguard] at h
    injection h with h
    subst h
    push_neg at hguard
    obtain ⟨hg, hw, hp⟩ := hguard
    exact ⟨⟨hg, hw, hres.2.2.1, hp⟩, hts⟩

theorem cancelHarvestTimestampAdjust_inv (sb : IBuilding)
    (bs : List IGarrisonBuilding) (res : IGarrisonResources) (t : ℚ)
    (hres : ResourcesNonneg res) (hts : TimestampsLE res t) :
    ResourcesNonneg (cancelHarvestTimestampAdjust sb bs res) ∧
    TimestampsLE (cancelHarvestTimestampAdjust sb bs res) t := by
  rcases hh : sb.harvest with _ | hv
  · simpa [cancelHarvestTimestampAdjust, hh] using ⟨hres, hts⟩
  rcases hmw : hv.maxWorkforce with _ | m
  · simpa [cancelHarvestTimestampAdjust, hh, hmw] using ⟨hres, hts⟩
  by_cases hex : bs.any (fun b' => decide (b'.code = sb.code)) = true
  · rcases hres' : hv.resource with _ | _ | _ | _ <;>
      simp only [cancelHarvestTimestampAdjust, hh, hmw, hex, if_true, hres'] <;>
      exact ⟨⟨hres.1, hres.2.1, hres.2.2.1, hres.2.2.2⟩,
        ⟨fun u hu => hts.1 u (by simpa using hu), fun u hu => hts.2 u (by simpa using hu)⟩⟩
  · simp only [Bool.not_eq_true] at hex
    simpa [cancelHarvestTimestampAdjust, hh, hmw, hex] using ⟨hres, hts⟩

theorem insertNewUnit_resources (g : Garrison) (code : String) (n : Nat)
    (asgs : List IUnitAssignment) :
    (insertNewUnit g code n asgs).resources = g.resources := by
  unfold insertNewUnit
  rcases hfw : findWithIndex (fun u => decide (u.code = code)) g.units with _ | y
  · simp [hfw]
  · obtain ⟨u, idx⟩ := y
    simp [hfw]

theorem addBuilding_inv (S : Statics) (now : ℚ) (bid cid : Nat) (g : Garrison)
    (p : IBuildingCreate) (g' : Garrison) (hS : StaticsWellFormed S)
    (hinv : GarrisonInv g now) (h : addBuilding S now bid cid g p = .ok g') :
    GarrisonInv g' now := by
  unfold addBuilding at h
  rcases hSb : S.findBuildingByCode p.code with _ | sb
  · rw [hSb] at h; cases h
  simp only [hSb] at h
  rcases hfu : findWithIndex (fun u => decide (u.code = "peasant")) g.units with _ | y
  · rw [hfu] at h; cases h
  obtain ⟨peasants, pIdx⟩ := y
  simp only [hfu] at h
  rcases hcw : checkWorkforceCoherence now p.workforce peasants sb none with e | u
  · rw [hcw] at h; cases h
  simp only [hcw] at h
  rcases hrq : (match sb.requiredBuildings with
    | some rs => checkStdRequirements now rs g.buildings
    | none => .ok ()) with e | u'
  · rw [hrq] at h; cases h
  simp only [hrq] at h
  rcases hUR : updateResources S now
      { g with buildings := g.buildings ++
        [⟨bid, p.code, [⟨cid, now,
          now + computeConstructionDuration p.workforce sb 0 * 1000,
          p.workforce, none⟩]⟩] } with e | g2
  · rw [hUR] at h; cases h
  simp only [hUR] at h
  have hinvg1 : GarrisonInv
      { g with buildings := g.buildings ++
        [⟨bid, p.code, [⟨cid, now,
          now + computeConstructionDuration p.workforce sb 0 * 1000,
          p.workforce, none⟩]⟩] } now := ⟨hinv.1, hinv.2⟩
  have hinv2 : GarrisonInv g2 now :=
    updateResources_inv S now _ g2 hS hinvg1 hUR
  rcases hpay : checkConstructionPaymentCapacity S g2.resources sb.cost none with e | res
  · rw [hpay] at h; cases h
  simp only [hpay] at h
  obtain ⟨hres3, hts3⟩ := checkConstructionPaymentCapacity_inv S g2.resources sb.cost
    none res now hinv2.1 hinv2.2 hpay
  injection h with h
  subst h
  rcases hh : sb.harvest with _ | hv
  · simpa [hh, GarrisonInv] using ⟨hres3, hts3⟩
  by_cases hmw : hv.maxWorkforce = none
  · have hamt : 0 ≤ hv.amount := (hS.2.2 _ _ hSb).2.2.2 hv hh
    have hval : 0 ≤ resGet res hv.resource + hv.amount := by
      have := resGet_nonneg res hv.resource hres3
      linarith
    constructor
    · simpa [hh, hmw] using resSet_nonneg res hv.resource _ hres3 hval
    · simpa [hh, hmw] using resSet_timestamps res hv.resource _ now hts3
  · constructor
    · simpa [hh, hmw] using hres3
    · simpa [hh, hmw] using hts3

theorem refundCredit_inv (res : IGarrisonResources) (a b c : ℚ) (t : ℚ)
    (hres : ResourcesNonneg res) (hts : TimestampsLE res t)
    (ha : 0 ≤ a) (hb : 0 ≤ b) (hc : 0 ≤ c) :
    ResourcesNonneg
      { res with gold := res.gold + a, wood := res.wood + b, plot := res.plot + c } ∧
    TimestampsLE
      { res with gold := res.gold + a, wood := res.wood + b, plot := res.plot + c } t := by
  obtain ⟨h1, h2, h3, h4⟩ := hres
  exact ⟨⟨show (0:ℚ) ≤ res.gold + a by linarith,
    show (0:ℚ) ≤ res.wood + b by linarith, h3,
    show (0:ℚ) ≤ res.plot + c by linarith⟩, hts.1, hts.2⟩

theorem cancelBuildingConstruction_inv (S : Statics) (g : Garrison)
    (p : IBuildingConstructionCancel) (g' : Garrison) (t : ℚ)
    (hS : StaticsWellFormed S) (hinv : GarrisonInv g t)
    (h : cancelBuildingConstruction S g p = .ok g') : GarrisonInv g' t := by
  unfold cancelBuildingConstruction at h
  rcases hfb : findWithIndex (fun b => decide (b.id = p.buildingId)) g.buildings with _ | x
  · rw [hfb] at h; cases h
  obtain ⟨building, bIndex⟩ := x
  simp only [hfb] at h
  rcases hSb : S.findBuildingByCode building.code with _ | sb
  · rw [hSb] at h; cases h
  simp only [hSb] at h
  rcases hfc : findWithIndex (fun c => decide (c.id = p.constructionId))
      building.constructions with _ | y
  · rw [hfc] at h; cases h
  obtain ⟨c0, cIndex⟩ := y
  simp only [hfc] at h
  rcases hfu : findWithIndex (fun u => decide (u.code = "peasant")) g.units with _ | z
  · rw [hfu] at h; cases h
  obtain ⟨peasants, pIdx⟩ := z
  simp only [hfu] at h
  injection h with h
  subst h
  obtain ⟨hg0, hw0, hp0, _⟩ := hS.2.2 _ _ hSb
  rcases hgc : building.constructions.get? cIndex with _ | c
  · simp only [hgc]
    have hc := refundCredit_inv g.resources sb.cost.gold sb.cost.wood sb.cost.plot t
      hinv.1 hinv.2 hg0 hw0 hp0
    exact cancelHarvestTimestampAdjust_inv sb _ _ t hc.1 hc.2
  simp only [hgc]
  rcases himp : c.improvement with _ | imp
  · simp only [himp]
    have hc := refundCredit_inv g.resources sb.cost.gold sb.cost.wood sb.cost.plot t
      hinv.1 hinv.2 hg0 hw0 hp0
    exact cancelHarvestTimestampAdjust_inv sb _ _ t hc.1 hc.2
  · simp only [himp, improvementRefund]
    have hc := refundCredit_inv g.resources
      (sb.cost.plot * S.decreasedFactor ^ imp.level) sb.cost.wood sb.cost.plot t
      hinv.1 hinv.2 (mul_nonneg hp0 (pow_nonneg hS.2.1 _)) hw0 hp0
    exact cancelHarvestTimestampAdjust_inv sb _ _ t hc.1 hc.2

theorem GarrisonInv_buildings (g : Garrison) (bs : List IGarrisonBuilding) (t : ℚ)
    (h : GarrisonInv g t) : GarrisonInv { g with buildings := bs } t :=
  ⟨h.1, h.2⟩

theorem upgradeBuilding_inv (S : Statics) (now : ℚ) (cid : Nat) (g : Garrison)
    (p : IBuildingUpgradeOrExtend) (g' : Garrison) (hS : StaticsWellFormed S)
    (hinv : GarrisonInv g now) (h : upgradeBuilding S now cid g p = .ok g') :
    GarrisonInv g' now := by
  unfold upgradeBuilding at h
  rcases hfb : findWithIndex (fun b => decide (b.id = p.buildingId)) g.buildings with _ | x
  · rw [hfb] at h; cases h
  obtain ⟨building, bIndex⟩ := x
  simp only [hfb] at h
  rcases hSb : S.findBuildingByCode building.code with _ | sb
  · rw [hSb] at h; cases h
  simp only [hSb] at h
  split at h
  · cases h
  rcases himp : checkBuildingImprovable building sb with e | up
  · rw [himp] at h; cases h
  simp only [himp] at h
  rcases hrq : (match up.requiredBuildings with
    | some rs => checkStdRequirements now rs g.buildings
    | none => .ok ()) with e | u'
  · rw [hrq] at h; cases h
  simp only [hrq] at h
  rcases hfu : findWithIndex (fun u => decide (u.code = "peasant")) g.units with _ | z
  · rw [hfu] at h; cases h
  obtain ⟨peasants, pIdx⟩ := z
  simp only [hfu] at h
  rcases hcw : checkWorkforceCoherence now p.workforce peasants sb
      (some (.upgrade, building.constructions)) with e | u
  · rw [hcw] at h; cases h
  simp only [hcw] at h
  split at h
  · cases h
  rename_i g2 hUR
  have hinv2 : GarrisonInv g2 now :=
    updateResources_inv S now _ g2 hS (GarrisonInv_buildings g _ now hinv) hUR
  split at h
  · cases h
  rename_i res hpay
  obtain ⟨hres3, hts3⟩ := checkConstructionPaymentCapacity_inv S g2.resources sb.cost
    _ res now hinv2.1 hinv2.2 hpay
  injection h with h
  subst h
  rcases hh : sb.harvest with _ | hv
  · simpa [hh, GarrisonInv] using ⟨hres3, hts3⟩
  by_cases hmw : hv.maxWorkforce = none
  · have hamt : 0 ≤ hv.amount := (hS.2.2 _ _ hSb).2.2.2 hv hh
    have hfl : (0:ℚ) ≤ ((⌊hv.amount * (6/5:ℚ) ^ up.level⌋ : ℤ) : ℚ) := by
      have h0 : (0:ℚ) ≤ hv.amount * (6/5:ℚ) ^ up.level :=
        mul_nonneg hamt (by positivity)
      exact_mod_cast Int.floor_nonneg.mpr h0
    have hval : 0 ≤ resGet res hv.resource + ((⌊hv.amount * (6/5:ℚ) ^ up.level⌋ : ℤ) : ℚ) := by
      have := resGet_nonneg res hv.resource hres3
      linarith
    constructor
    · simpa [hh, hmw] using resSet_nonneg res hv.resource _ hres3 hval
    · simpa [hh, hmw] using resSet_timestamps res hv.resource _ now hts3
  · constructor
    · simpa [hh, hmw] using hres3
    · simpa [hh, hmw] using hts3

theorem paymentDebit_inv (res : IGarrisonResources) (a b c : ℚ) (t : ℚ)
    (h3 : 0 ≤ res.food) (hts : TimestampsLE res t)
    (ha : 0 ≤ res.gold - a) (hb : 0 ≤ res.wood - b) (hc : 0 ≤ res.plot - c) :
    ResourcesNonneg
      { res with gold := res.gold - a, wood := res.wood - b, plot := res.plot - c } ∧
    TimestampsLE
      { res with gold := res.gold - a, wood := res.wood - b, plot := res.plot - c } t :=
  ⟨⟨ha, hb, h3, hc⟩, hts.1, hts.2⟩

theorem extendBuilding_inv (S : Statics) (now : ℚ) (cid : Nat) (g : Garrison)
    (p : IBuildingUpgradeOrExtend) (g' : Garrison) (hS : StaticsWellFormed S)
    (hinv : GarrisonInv g now) (h : extendBuilding S now cid g p = .ok g') :
    GarrisonInv g' now := by
  unfold extendBuilding at h
  rcases hfb : findWithIndex (fun b => decide (b.id = p.buildingId)) g.buildings with _ | x
  · rw [hfb] at h; cases h
  obtain ⟨garrB, bIdx⟩ := x
  simp only [hfb] at h
  rcases hSb : S.findBuildingByCode garrB.code with _ | sb
  · rw [hSb] at h; cases h
  simp only [hSb] at h
  rcases hext : sb.extensionInfo with _ | ext
  · rw [hext] at h; cases h
  simp only [hext] at h
  by_cases hbusy : hasUnexpired now garrB.constructions = true
  · rw [if_pos hbusy] at h; cases h
  rw [if_neg hbusy] at h
  by_cases hth : (match ext.maxLevel with
    | some m => decide (m < currentMaxLevel ImprovementType.extension garrB.constructions + 1)
    | none => false) = true
  · rw [if_pos hth] at h; cases h
  rw [if_neg hth] at h
  by_cases hun : (match ext.requiredBuildings with
    | some rs => rs.any (extendRequirementUnfulfilledOne now
        (currentMaxLevel ImprovementType.extension garrB.constructions) g.buildings)
    | none => false) = true
  · rw [if_pos hun] at h; cases h
  rw [if_neg hun] at h
  rcases hfu : findWithIndex (fun u => decide (u.code = "peasant")) g.units with _ | z
  · rw [hfu] at h; cases h
  obtain ⟨peasants, pIdx⟩ := z
  simp only [hfu] at h
  by_cases hq1 : peasants.quantity < p.workforce
  · rw [if_pos hq1] at h; cases h
  rw [if_neg hq1] at h
  by_cases hq2 : ((peasants.quantity : ℤ) - unexpiredAssigned now peasants) < (p.workforce : ℤ)
  · rw [if_pos hq2] at h; cases h
  rw [if_neg hq2] at h
  by_cases hq3 : p.workforce < sb.minWorkforce * 2 ^
      (currentMaxLevel ImprovementType.extension garrB.constructions + 1)
  · rw [if_pos hq3] at h; cases h
  rw [if_neg hq3] at h
  by_cases hq4 : sb.minWorkforce * 2 ^
      (currentMaxLevel ImprovementType.extension garrB.constructions + 1) * 2 < p.workforce
  · rw [if_pos hq4] at h; cases h
  rw [if_neg hq4] at h
  split at h
  · cases h
  rename_i hpay
  push_neg at hpay
  injection h with h
  subst h
  have hr1 := paymentDebit_inv g.resources _ _ _ now hinv.1.2.2.1 hinv.2
    hpay.1 hpay.2.1 hpay.2.2
  rcases hh : sb.harvest with _ | hv
  · simpa [hh, GarrisonInv] using hr1
  by_cases hmw : hv.maxWorkforce = none
  · have hamt : 0 ≤ hv.amount := (hS.2.2 _ _ hSb).2.2.2 hv hh
    simp only [hh]
    rw [if_pos hmw]
    constructor
    · refine resSet_nonneg _ hv.resource _ hr1.1 ?_
      have hg0 := resGet_nonneg _ hv.resource hr1.1
      have h0 : (0:ℚ) ≤ hv.amount * (6/5:ℚ) ^
          (currentMaxLevel ImprovementType.extension garrB.constructions + 1) :=
        mul_nonneg hamt (by positivity)
      have hflq : (0:ℚ) ≤ ((⌊hv.amount * (6/5:ℚ) ^
          (currentMaxLevel ImprovementType.extension garrB.constructions + 1)⌋ : ℤ) : ℚ) := by
        exact_mod_cast Int.floor_nonneg.mpr h0
      linarith
    · exact resSet_timestamps _ hv.resource _ now hr1.2
  · simp only [hh]
    rw [if_neg hmw]
    exact ⟨hr1.1, hr1.2⟩

theorem addUnit_inv (S : Statics) (now : ℚ) (g : Garrison) (p : IUnitCreate)
    (g' : Garrison) (hS : StaticsWellFormed S) (hinv : GarrisonInv g now)
    (h : addUnit S now g p = .ok g') : GarrisonInv g' now := by
  unfold addUnit at h
  rcases hU : S.findUnitByCode p.code with _ | su
  · rw [hU] at h; cases h
  simp only [hU] at h
  by_cases hrq : addUnitUnfulfilled now g su = true
  · rw [if_pos hrq] at h; cases h
  rw [if_neg hrq] at h
  split at h
  · cases h
  rename_i g2 hUR
  have hinv1 : GarrisonInv (insertNewUnit g su.code (quantityOrOne p.quantity)
      (pushTraining su.duration now (quantityOrOne p.quantity) [])) now :=
    ⟨by rw [insertNewUnit_resources]; exact hinv.1,
     by rw [insertNewUnit_resources]; exact hinv.2⟩
  have hinv2 : GarrisonInv g2 now := updateResources_inv S now _ g2 hS hinv1 hUR
  split at h
  · cases h
  rename_i hpay
  push_neg at hpay
  injection h with h
  subst h
  exact ⟨⟨hpay.1, hpay.2.1, hpay.2.2, hinv2.1.2.2.2⟩, hinv2.2.1, hinv2.2.2⟩

theorem assignUnit_inv (S : Statics) (now : ℚ) (g : Garrison) (p : IUnitAssign)
    (g' : Garrison) (hS : StaticsWellFormed S) (hinv : GarrisonInv g now)
    (h : assignUnit S now g p = .ok g') : GarrisonInv g' now := by
  unfold assignUnit at h
  rcases hfb : findWithIndex (fun b => decide (b.id = p.buildingId)) g.buildings with _ | x
  · rw [hfb] at h; cases h
  obtain ⟨garrB, bIdx⟩ := x
  simp only [hfb] at h
  rcases hSb : S.findBuildingByCode garrB.code with _ | sb
  · rw [hSb] at h; cases h
  simp only [hSb] at h
  rcases hh : sb.harvest with _ | hv
  · rw [hh] at h; cases h
  simp only [hh] at h
  rcases hU : S.findUnitByCode p.code with _ | unit
  · rw [hU] at h; cases h
  simp only [hU] at h
  rcases hgu : findWithIndex (fun u => decide (u.code = p.code)) g.units with _ | z
  · rw [hgu] at h; cases h
  obtain ⟨garrUnits, uIdx⟩ := z
  simp only [hgu] at h
  split at h
  · cases h
  split at h
  · cases h
  split at h
  · cases h
  split at h
  · cases h
  rename_i gU hud
  have hgU : GarrisonInv gU now := by
    by_cases hpc : unit.code = "peasant"
    · rw [if_pos hpc] at hud
      exact updateResources_inv S now g gU hS hinv hud
    · rw [if_neg hpc] at hud
      injection hud with hud
      subst hud
      exact hinv
  injection h with h
  subst h
  by_cases hcg : sb.code = "goldmine"
  · rw [if_pos hcg]
    rcases hglu : gU.resources.goldLastUpdate with _ | u0
    · simp only [hglu]
      refine ⟨hgU.1, ?_, hgU.2.2⟩
      intro u hu
      simp only [Option.some.injEq] at hu
      exact hu.symm.le
    · simp only [hglu]
      exact ⟨hgU.1, hgU.2⟩
  · rw [if_neg hcg]
    by_cases hcw : sb.code = "sawmill"
    · rw [if_pos hcw]
      rcases hwlu : gU.resources.woodLastUpdate with _ | u0
      · simp only [hwlu]
        refine ⟨hgU.1, hgU.2.1, ?_⟩
        intro u hu
        simp only [Option.some.injEq] at hu
        exact hu.symm.le
      · simp only [hwlu]
        exact ⟨hgU.1, hgU.2⟩
    · rw [if_neg hcw]
      exact ⟨hgU.1, hgU.2⟩

theorem unassignUnit_inv (S : Statics) (now : ℚ) (g : Garrison) (p : IUnitAssign)
    (g' : Garrison) (hS : StaticsWellFormed S) (hinv : GarrisonInv g now)
    (h : unassignUnit S now g p = .ok g') : GarrisonInv g' now := by
  unfold unassignUnit at h
  rcases hfb : findWithIndex (fun b => decide (b.id = p.buildingId)) g.buildings with _ | x
  · rw [hfb] at h; cases h
  obtain ⟨garrB, bIdx⟩ := x
  simp only [hfb] at h
  rcases hSb : S.findBuildingByCode garrB.code with _ | sb
  · rw [hSb] at h; cases h
  simp only [hSb] at h
  rcases hh : sb.harvest with _ | hv
  · rw [hh] at h; cases h
  simp only [hh] at h
  rcases hU : S.findUnitByCode p.code with _ | unit
  · rw [hU] at h; cases h
  simp only [hU] at h
  rcases hgu : findWithIndex (fun u => decide (u.code = p.code)) g.units with _ | z
  · rw [hgu] at h; cases h
  obtain ⟨garrUnits, uIdx⟩ := z
  simp only [hgu] at h
  rcases hix : garrUnits.assignments.findIdx? (fun a =>
      decide (a.buildingId = some garrB.id) &&
        decide (a.type = AssignmentType.harvest)) with _ | aIdx
  · rw [hix] at h; cases h
  simp only [hix] at h
  rcases hga : garrUnits.assignments.get? aIdx with _ | assignment
  · rw [hga] at h; cases h
  simp only [hga] at h
  split at h
  · cases h
  split at h
  · cases h
  rename_i gU hud
  have hgU : GarrisonInv gU now := by
    by_cases hpc : unit.code = "peasant"
    · rw [if_pos hpc] at hud
      exact updateResources_inv S now g gU hS hinv hud
    · rw [if_neg hpc] at hud
      injection hud with hud
      subst hud
      exact hinv
  injection h with h
  subst h
  by_cases hcg : sb.code = "goldmine"
  · rw [if_pos hcg]
    split
    · split
      · exact ⟨hgU.1, hgU.2⟩
      · refine ⟨hgU.1, ?_, hgU.2.2⟩
        intro u hu
        simp at hu
    · split
      · exact ⟨hgU.1, hgU.2⟩
      · refine ⟨hgU.1, ?_, hgU.2.2⟩
        intro u hu
        simp at hu
  · rw [if_neg hcg]
    by_cases hcw : sb.code = "sawmill"
    · rw [if_pos hcw]
      split
      · split
        · exact ⟨hgU.1, hgU.2⟩
        · refine ⟨hgU.1, hgU.2.1, ?_⟩
          intro u hu
          simp at hu
      · split
        · exact ⟨hgU.1, hgU.2⟩
        · refine ⟨hgU.1, hgU.2.1, ?_⟩
          intro u hu
          simp at hu
    · rw [if_neg hcw]
      exact ⟨hgU.1, hgU.2⟩

theorem applyOp_inv (S : Statics) (now : ℚ) (g : Garrison) (op : GarrisonOp)
    (g' : Garrison) (hS : StaticsWellFormed S) (hinv : GarrisonInv g now)
    (h : applyOp S now g op = .ok g') : GarrisonInv g' now := by
  cases op with
  | addBuildingOp p bid cid => exact addBuilding_inv S now bid cid g p g' hS hinv h
  | cancelOp p => exact cancelBuildingConstruction_inv S g p g' now hS hinv h
  | upgradeOp p cid => exact upgradeBuilding_inv S now cid g p g' hS hinv h
  | extendOp p cid => exact extendBuilding_inv S now cid g p g' hS hinv h
  | addUnitOp p => exact addUnit_inv S now g p g' hS hinv h
  | assignOp p => exact assignUnit_inv S now g p g' hS hinv h
  | unassignOp p => exact unassignUnit_inv S now g p g' hS hinv h

theorem persistOp_inv (S : Statics) (now : ℚ) (g : Garrison) (op : GarrisonOp)
    (hS : StaticsWellFormed S) (hinv : GarrisonInv g now) :
    GarrisonInv (persistOp S now g op) now := by
  unfold persistOp
  rcases h : applyOp S now g op with e | g2
  · simpa [persist] using hinv
  · simpa [persist] using applyOp_inv S now g op g2 hS hinv h

theorem runOps_inv (S : Statics) (hS : StaticsWellFormed S) :
    ∀ (ops : List (ℚ × GarrisonOp)) (g : Garrison) (t : ℚ),
      GarrisonInv g t → List.Chain' (fun a b => a ≤ b) (t :: ops.map Prod.fst) →
      ResourcesNonneg (runOps S g ops).resources := by
  intro ops
  induction ops with
  | nil => intro g t hinv _; exact hinv.1
  | cons hd rest ih =>
    intro g t hinv hchain
    obtain ⟨t1, op⟩ := hd
    simp only [List.map_cons] at hchain
    rw [List.chain'_cons] at hchain
    have hinv1 : GarrisonInv g t1 := GarrisonInv_mono g t t1 hinv hchain.1
    have hinv2 : GarrisonInv (persistOp S t1 g op) t1 :=
      persistOp_inv S t1 g op hS hinv1
    exact ih (persistOp S t1 g op) t1 hinv2 hchain.2

/-- C5: after any sequence of the exposed operations (each taken at a
wall-clock instant, the instants nondecreasing as `Date.now()` is), starting
from a freshly created garrison, every resource quantity (gold, wood, food,
plot) of the persisted garrison is non-negative, provided the static catalog
is well-formed (non-negative costs, harvest amounts and scaling factors).
Each operation either fails — leaving the persisted garrison untouched — or
debits only amounts it has just checked to be covered, and credits only
non-negative refunds, gifts and accruals. -/
theorem C5_resources_nonneg (S : Statics) (hS : StaticsWellFormed S)
    (ops : List (ℚ × GarrisonOp))
    (hchain : List.Chain' (fun a b => a ≤ b) (ops.map Prod.fst)) :
    0 ≤ (runOps S initialGarrison ops).resources.gold ∧
    0 ≤ (runOps S initialGarrison ops).resources.wood ∧
    0 ≤ (runOps S initialGarrison ops).resources.food ∧
    0 ≤ (runOps S initialGarrison ops).resources.plot := by
  cases ops with
  | nil =>
    refine ⟨?_, ?_, ?_, ?_⟩ <;> norm_num [runOps, initialGarrison]
  | cons hd rest =>
    obtain ⟨t1, op⟩ := hd
    have hinv0 : GarrisonInv initialGarrison t1 := by
      refine ⟨⟨?_, ?_, ?_, ?_⟩, ?_, ?_⟩
      · norm_num [initialGarrison]
      · norm_num [initialGarrison]
      · norm_num [initialGarrison]
      · norm_num [initialGarrison]
      · intro u hu; simp [initialGarrison] at hu
      · intro u hu; simp [initialGarrison] at hu
    have hcc : List.Chain' (fun a b => a ≤ b)
        (t1 :: ((t1, op) :: rest).map Prod.fst) := by
      simp only [List.map_cons]
      refine List.chain'_cons.mpr ⟨le_refl t1, ?_⟩
      simpa using hchain
    exact runOps_inv S hS ((t1, op) :: rest) initialGarrison t1 hinv0 hcc

/-- Static unit fixture for the C5 witness. -/
def peasantC5 : IUnit :=
  { code := "peasant", cost := ⟨10, 0, 1⟩, duration := 10, requiredBuildings := none }

/-- Statics fixture for the C5 witness: an empty building catalog and the
peasant unit. -/
def staticsC5 : Statics :=
  { findBuildingByCode := fun _ => none
    findUnitByCode := fun c => if c = "peasant" then some peasantC5 else none
    defaultFactor := 8/5
    decreasedFactor := 3/2 }

/-- C5 witness: training two peasants at t=0 and one more a minute later
leaves every resource of the persisted garrison non-negative. -/
theorem C5_witness :
    0 ≤ (runOps staticsC5 initialGarrison
      [(0, GarrisonOp.addUnitOp ⟨"peasant", some 2⟩),
       (60000, GarrisonOp.addUnitOp ⟨"peasant", none⟩)]).resources.gold ∧
    0 ≤ (runOps staticsC5 initialGarrison
      [(0, GarrisonOp.addUnitOp ⟨"peasant", some 2⟩),
       (60000, GarrisonOp.addUnitOp ⟨"peasant", none⟩)]).resources.wood ∧
    0 ≤ (runOps staticsC5 initialGarrison
      [(0, GarrisonOp.addUnitOp ⟨"peasant", some 2⟩),
       (60000, GarrisonOp.addUnitOp ⟨"peasant", none⟩)]).resources.food ∧
    0 ≤ (runOps staticsC5 initialGarrison
      [(0, GarrisonOp.addUnitOp ⟨"peasant", some 2⟩),
       (60000, GarrisonOp.addUnitOp ⟨"peasant", none⟩)]).resources.plot :=
  C5_resources_nonneg staticsC5
    (by
      refine ⟨by norm_num [staticsC5], by norm_num [staticsC5], ?_⟩
      intro c sb hcs
      simp [staticsC5] at hcs)
    [(0, GarrisonOp.addUnitOp ⟨"peasant", some 2⟩),
     (60000, GarrisonOp.addUnitOp ⟨"peasant", none⟩)]
    (by norm_num [List.chain'_cons, List.chain'_singleton])

end GarrisonRepo
